import Mathlib

/-!
Verification of the route-machine repository: a shallow embedding in Lean 4 of
the router state machine, its history stack, the route matcher and the
navigation guard pipeline (src/unnamed/part_000, src/unnamed/part_001,
src/packages/route-machine/src/router.connect.ts), together with theorems
settling the specification claims.

JavaScript strings are modelled by Lean `String` viewed as its list of
characters (`String.data`); all pathnames in the repository are ASCII, where
JavaScript's UTF-16 `length`/`slice` indices coincide with character counts.
-/

namespace RouteMachine

/-- Models JavaScript `s.startsWith(p)`. -/
def jsStartsWith (s p : String) : Bool :=
  p.data.isPrefixOf s.data

/-- Models JavaScript `s.endsWith(p)`. -/
def jsEndsWith (s p : String) : Bool :=
  p.data.isSuffixOf s.data

/-- Models JavaScript `s.includes(c)` for a one-character needle `c`. -/
def jsIncludesChar (s : String) (c : Char) : Bool :=
  s.data.contains c

/-- Models JavaScript `s.slice(n)` (drop the first `n` code units). -/
def jsSliceFrom (s : String) (n : Nat) : String :=
  String.mk (s.data.drop n)

/-- Models JavaScript `s.slice(0, n)` (keep the first `n` code units). -/
def jsSliceTo (s : String) (n : Nat) : String :=
  String.mk (s.data.take n)

/-- Models the length of JavaScript `s.split(sep)` for a one-character
separator: one more than the number of separator occurrences (JS `split`
never returns an empty array). -/
def jsSplitCount (s : String) (sep : Char) : Nat :=
  s.data.count sep + 1

/-- Models JavaScript falsiness of a string: only the empty string is falsy. -/
def jsFalsy (s : String) : Bool :=
  s = ""

/-- Modelled from the spec: the platform URL decomposition primitive
(spec section 1 places URL string parsing out of scope, "assumed provided as
an input primitive"). Models `new URL(url, base).pathname/search/hash` for
the server-side branch of `parseUrl` (src/unnamed/part_001 line 16): the hash
is everything from the first `#` on, the search everything from the first `?`
(before the hash) on, and the pathname is the rest, resolved against the
origin by prefixing `/` when not already path-absolute.  Percent-encoding and
dot-segment normalisation, which the claims never exercise, are not modelled. -/
def urlDecompose (url : String) : String × String × String :=
  let cs := url.data
  let beforeHash := cs.takeWhile (fun c => c ≠ '#')
  let hash := cs.drop beforeHash.length
  let path := beforeHash.takeWhile (fun c => c ≠ '?')
  let search := beforeHash.drop path.length
  let pathname := if path.head? = some '/' then path else '/' :: path
  (String.mk pathname, String.mk search, String.mk hash)

/-- Models one query value of `parseUrl`: a plain string, or the array a
repeated key collapses into. -/
inductive QueryVal where
  | one (s : String)
  | many (ss : List String)
deriving DecidableEq, Repr

/-- Models `Record<string, any>` route metadata; the claims only ever compare
metadata for identity, so values are modelled as strings. -/
abbrev RouteMeta := List (String × String)

/-- Embeds `RouteLocation` (router.types.ts lines 16-24). `params` and `query`
are association lists in insertion order, matching JS object key order. -/
structure RouteLocation where
  pathname : String
  search : String
  hash : String
  params : List (String × String)
  query : List (String × QueryVal)
  meta : Option RouteMeta
  name : Option String
deriving DecidableEq, Repr

/-- Embeds `RouteDefinition` (router.types.ts lines 26-30). -/
structure RouteDefinition where
  path : String
  name : Option String
  meta : Option RouteMeta
deriving DecidableEq, Repr

/-- Models `urlObj.searchParams.entries()`: the raw key-value pairs of a
search string, in order.  Drops the leading `?`, splits on `&`, splits each
nonempty part at its first `=`.  Percent-decoding is not modelled. -/
def searchPairs (search : String) : List (String × String) :=
  let body := if search.data.head? = some '?' then search.data.drop 1 else search.data
  (body.splitOn '&').filterMap fun part =>
    match part with
    | [] => none
    | _ =>
      let key := part.takeWhile (fun c => c ≠ '=')
      let rest := part.drop key.length
      some (String.mk key, String.mk (rest.drop 1))

/-- Embeds the query-collapsing loop of `parseUrl` (src/unnamed/part_001
lines 33-45): a repeated key turns its value into an array and later values
are appended to it. -/
def collapseQuery (pairs : List (String × String)) : List (String × QueryVal) :=
  pairs.foldl accStep []
where
  accStep (acc : List (String × QueryVal)) (kv : String × String) :
      List (String × QueryVal) :=
    if (acc.find? (fun e => e.1 = kv.1)).isSome then
      acc.map fun e =>
        if e.1 = kv.1 then
          match e.2 with
          | QueryVal.one v => (e.1, QueryVal.many [v, kv.2])
          | QueryVal.many vs => (e.1, QueryVal.many (vs ++ [kv.2]))
        else e
    else acc ++ [(kv.1, QueryVal.one kv.2)]

/-- Embeds `parseUrl` (src/unnamed/part_001 lines 10-54), server-side branch:
decompose the URL, strip the configured base path from the pathname (falling
back to `/` when stripping empties it), and collapse the query parameters. -/
def parseUrl (url : String) (basePath : String) : RouteLocation :=
  let rawPathname := (urlDecompose url).1
  let search := (urlDecompose url).2.1
  let pathname :=
    if basePath ≠ "/" ∧ jsStartsWith rawPathname basePath then
      let stripped := jsSliceFrom rawPathname basePath.length
      if jsFalsy stripped then "/" else stripped
    else rawPathname
  { pathname := pathname
    search := search
    hash := (urlDecompose url).2.2
    query := collapseQuery (searchPairs search)
    params := []
    meta := none
    name := none }

/-- Embeds `createUrl` (src/unnamed/part_001 lines 57-66): prepend the base
path (when truthy and not `/`) to the pathname with its leading slash
removed, then append search and hash. -/
def createUrl (pathname search hash basePath : String) : String :=
  let fullPath :=
    if ¬ jsFalsy basePath ∧ basePath ≠ "/" then
      basePath ++ (if jsStartsWith pathname "/" then jsSliceFrom pathname 1 else pathname)
    else pathname
  fullPath ++ search ++ hash

/-- Embeds the target-pathname defaulting `target.pathname || "/"` used by
`isActive` (router.connect.ts lines 83 and 87). -/
def defaultedPathname (p : String) : String :=
  if jsFalsy p then "/" else p

/-- Embeds `isActive` (router.connect.ts lines 78-89) on an already resolved
target pathname: exact mode is pathname equality, non-exact mode is a plain
`startsWith` test of the current pathname against the target pathname. -/
def isActive (currentPathname targetPathname : String) (exact : Bool) : Bool :=
  if exact then
    currentPathname = defaultedPathname targetPathname
  else
    jsStartsWith currentPathname (defaultedPathname targetPathname)

/-- One piece of a compiled route pattern: a literal character, or a named
parameter produced from a `:name` segment. -/
inductive Tok where
  | lit (c : Char)
  | param (name : String)
deriving DecidableEq, Repr

/-- Models JavaScript `\w` (`[A-Za-z0-9_]`). -/
def isWordChar (c : Char) : Bool :=
  c.isAlpha ∨ c.isDigit ∨ c = '_'

/-- Compiles a pattern string the way `pattern.replace(/:(\w+)/g, ...)` reads
it (src/unnamed/part_001 lines 78-80 and 105): a `:` followed by at least one
word character becomes a named-parameter token consuming the maximal word-char
run; every other character is a literal.  The resulting regular expression is
anchored (`^...$`); pattern characters other than `:name` are treated as
literal characters (route patterns reaching this code path contain no other
regex metacharacters).  The `fuel` argument makes the recursion structural;
`compileToks` below supplies enough for the whole scan. -/
def compileToksFuel : Nat → List Char → List Tok
  | 0, _ => []
  | _, [] => []
  | fuel + 1, ':' :: rest =>
    let nm := rest.takeWhile isWordChar
    if nm.isEmpty then Tok.lit ':' :: compileToksFuel fuel rest
    else Tok.param (String.mk nm) :: compileToksFuel fuel (rest.dropWhile isWordChar)
  | fuel + 1, c :: rest => Tok.lit c :: compileToksFuel fuel rest

/-- The scan of `compileToksFuel` started with enough fuel: every step
consumes at least one character, so `cs.length` steps always complete the
scan (the fuel only serves to make the recursion structural). -/
def compileToks (cs : List Char) : List Tok :=
  compileToksFuel cs.length cs

/-- Models the anchored regex test of `matchesPattern` (src/unnamed/part_001
line 106): a `param` token matches one or more non-`/` characters, a `lit`
token matches exactly its character, and the whole input must be consumed. -/
def matchToks : List Tok → List Char → Bool
  | [], [] => true
  | [], _ :: _ => false
  | Tok.lit _ :: _, [] => false
  | Tok.lit c :: ts, d :: ds => c = d && matchToks ts ds
  | Tok.param _ :: _, [] => false
  | Tok.param nm :: ts, d :: ds =>
    if d = '/' then false
    else matchToks ts ds || matchToks (Tok.param nm :: ts) ds

/-- Models the anchored regex match with named captures used by
`extractParams` (src/unnamed/part_001 lines 78-85): same matching relation as
`matchToks`, with greedy capture groups (`[^/]+` prefers the longer
extension, backtracking on failure, exactly as the JS regex engine does). -/
def matchCaps : List Tok → List Char → Option (List (String × List Char))
  | [], [] => some []
  | [], _ :: _ => none
  | Tok.lit _ :: _, [] => none
  | Tok.lit c :: ts, d :: ds => if c = d then matchCaps ts ds else none
  | Tok.param _ :: _, [] => none
  | Tok.param nm :: ts, d :: ds =>
    if d = '/' then none
    else
      match matchCaps (Tok.param nm :: ts) ds with
      | some ((m, s) :: rest) => some ((m, d :: s) :: rest)
      | some [] => some []
      | none =>
        match matchCaps ts ds with
        | some caps => some ((nm, [d]) :: caps)
        | none => none

/-- Embeds `extractParams` (src/unnamed/part_001 lines 69-88): catch-all
patterns yield no parameters; otherwise the named captures of the anchored
regex match, or no parameters when the match fails. -/
def extractParams (pathname pattern : String) : List (String × String) :=
  if pattern = "*" ∨ pattern = "/*" ∨ jsEndsWith pattern "/*" then []
  else
    match matchCaps (compileToks pattern.data) pathname.data with
    | some caps => caps.map fun e => (e.1, String.mk e.2)
    | none => []

/-- Embeds `matchesPattern` (src/unnamed/part_001 lines 91-107): exact
equality; global catch-all `*` or `/*`; trailing catch-all `p/*` matching `p`
itself or anything under `p/`; otherwise the anchored `:name`-parameter
regex. -/
def matchesPattern (pathname pattern : String) : Bool :=
  if pathname = pattern then true
  else if pattern = "*" ∨ pattern = "/*" then true
  else if jsEndsWith pattern "/*" then
    let pre := jsSliceTo pattern (pattern.length - 2)
    jsStartsWith pathname (pre ++ "/") || pathname = pre
  else matchToks (compileToks pattern.data) pathname.data

/-- Embeds the static-route test of the specificity comparator
(src/unnamed/part_001 lines 114-115): no `:` and no `*` in the path. -/
def isStaticPath (p : String) : Bool :=
  !(jsIncludesChar p ':') && !(jsIncludesChar p '*')

/-- Embeds `a.path.split("/").length` of the specificity comparator
(src/unnamed/part_001 lines 120-121). -/
def segCount (p : String) : Nat :=
  jsSplitCount p '/'

/-- Embeds `a.path.includes("*")` of the specificity comparator
(src/unnamed/part_001 lines 125-126). -/
def hasWildcard (p : String) : Bool :=
  jsIncludesChar p '*'

/-- Embeds the specificity comparator passed to `sort` by
`findBestMatchingRoute` (src/unnamed/part_001 lines 112-129): static routes
first; then by segment count, more segments first; for equal segment counts,
catch-all routes last; otherwise equal. -/
def cmpRoutes (a b : RouteDefinition) : Int :=
  let aStatic := isStaticPath a.path
  let bStatic := isStaticPath b.path
  if aStatic && !bStatic then -1
  else if !aStatic && bStatic then 1
  else
    let aSeg := segCount a.path
    let bSeg := segCount b.path
    if aSeg ≠ bSeg then (bSeg : Int) - (aSeg : Int)
    else if hasWildcard a.path && !hasWildcard b.path then 1
    else if !hasWildcard a.path && hasWildcard b.path then -1
    else 0

/-- The non-strict order induced by the comparator: `a` sorts no later than
`b`. -/
def routeLe (a b : RouteDefinition) : Prop :=
  cmpRoutes a b ≤ 0

instance : DecidableRel routeLe := fun a b => by
  unfold routeLe
  infer_instance

/-- Embeds `[...routes].sort(comparator)` (src/unnamed/part_001 line 112).
ECMAScript `Array.prototype.sort` with a consistent comparator is a stable
sort by that comparator; it is modelled by Mathlib's stable insertion sort
with respect to the induced non-strict order. -/
def sortRoutes (routes : List RouteDefinition) : List RouteDefinition :=
  List.insertionSort routeLe routes

/-- Embeds `findBestMatchingRoute` (src/unnamed/part_001 lines 110-133): the
first route of the specificity-sorted copy whose pattern matches. -/
def findBestMatchingRoute (pathname : String) (routes : List RouteDefinition) :
    Option RouteDefinition :=
  (sortRoutes routes).find? fun route => matchesPattern pathname route.path

/-- Embeds the `type` union of `NavigationDetails` (router.types.ts line 39). -/
inductive NavType where
  | initial
  | push
  | replace
  | back
  | forward
deriving DecidableEq, Repr

/-- Embeds the `source` union of `NavigationDetails` (router.types.ts
line 40); the code only ever constructs details with one of these three. -/
inductive NavSource where
  | programmatic
  | browser
  | user
deriving DecidableEq, Repr

/-- Modelled from the spec: the `source` enumeration the spec's data model
gives for NavigationDetails, `one of (initial, programmatic, user, browser)`
(spec section 3); the code's own union (router.types.ts line 40) lacks the
`initial` member, so claims stated in the spec's vocabulary are interpreted
through `asSpecSource`. -/
inductive SpecNavSource where
  | initial
  | programmatic
  | browser
  | user
deriving DecidableEq, Repr

/-- The injection of the code's `source` values into the spec's enumeration. -/
def asSpecSource : NavSource → SpecNavSource
  | NavSource.programmatic => SpecNavSource.programmatic
  | NavSource.browser => SpecNavSource.browser
  | NavSource.user => SpecNavSource.user

/-- Embeds `NavigationDetails` (router.types.ts lines 36-41); `from` is a
Lean keyword, so the field is named `fromLoc`. -/
structure NavigationDetails where
  fromLoc : Option RouteLocation
  toLoc : RouteLocation
  type : NavType
  source : NavSource
deriving DecidableEq, Repr

/-- Embeds the machine's private context (router.types.ts lines 118-147);
`initialized` is named `initDone`. -/
structure Ctx where
  location : RouteLocation
  previousLocation : Option RouteLocation
  navigating : Bool
  pendingNavigation : Option NavigationDetails
  initDone : Bool
  historyStack : List RouteLocation
  historyIndex : Nat
deriving DecidableEq, Repr

/-- Models the return value of the user guard `onBeforeNavigate`
(router.types.ts line 93): `deny` is the literal `false`; `redirect` is any
string; `allow` stands for `true`, `undefined` and `void`, which
`invokeBeforeNavigate` treats identically (src/unnamed/part_000
lines 508-511). -/
inductive GuardResult where
  | allow
  | deny
  | redirect (url : String)

/-- Models a `Partial<RouteLocation>` (the `initialLocation` prop). -/
structure PartialLocation where
  pathname : Option String
  search : Option String
  hash : Option String
  params : Option (List (String × String))
  query : Option (List (String × QueryVal))
  meta : Option RouteMeta
  name : Option String

/-- The machine props the embedded core reads (router.types.ts lines 54-110).
Observer callbacks other than the guard are modelled by presence flags; their
invocations are recorded in an observation log. -/
structure Props where
  basePath : String
  hashRouting : Bool
  scrollToTop : Bool
  routes : Option (List RouteDefinition)
  initialLocation : Option PartialLocation
  onBeforeNavigate : Option (NavigationDetails → GuardResult)
  hasOnNavigate : Bool
  hasOnNavigationStart : Bool
  hasOnNavigationEnd : Bool
  hasOnNavigationError : Bool

/-- One recorded observer invocation. -/
inductive ObsCall where
  | start (d : NavigationDetails)
  | beforeNav (d : NavigationDetails)
  | endNav (d : NavigationDetails)
  | navigate (d : NavigationDetails)
  | errorNav (msg : String) (d : NavigationDetails)
deriving DecidableEq, Repr

/-- The machine's states (router.types.ts line 172). -/
inductive SName where
  | initializing
  | idle
  | navigating
  | error
deriving DecidableEq, Repr

/-- A machine snapshot: state, context and the log of observer invocations. -/
structure MState where
  st : SName
  ctx : Ctx
  log : List ObsCall

/-- The event sent internally by the guard pipeline. -/
inductive SentEvent where
  | complete
  | errored (msg : String)

/-- The payload fields of an external event (router.types.ts lines 185-189). -/
structure EventPayload where
  pathname : Option String
  search : Option String
  hash : Option String
  url : Option String

/-- The payload with every field `undefined`. -/
def EventPayload.empty : EventPayload :=
  { pathname := none, search := none, hash := none, url := none }

/-- The external events the embedded core handles.  `POP_STATE` and
`HASH_CHANGE` read the ambient browser window and are outside the embedded
(server-side) model. -/
inductive Event where
  | NAVIGATE (p : EventPayload)
  | PUSH (p : EventPayload)
  | REPLACE (p : EventPayload)
  | BACK
  | FORWARD

/-- The payload carried by an event. -/
def Event.payload : Event → EventPayload
  | Event.NAVIGATE p => p
  | Event.PUSH p => p
  | Event.REPLACE p => p
  | Event.BACK => EventPayload.empty
  | Event.FORWARD => EventPayload.empty

/-- Embeds `findRouteByLocation` (src/unnamed/part_000 lines 697-699). -/
def findRouteByLocation (location : RouteLocation) (routes : List RouteDefinition) :
    Option RouteDefinition :=
  findBestMatchingRoute location.pathname routes

/-- Embeds `enrichLocationWithMeta` (src/unnamed/part_000 lines 701-712). -/
def enrichLocationWithMeta (location : RouteLocation)
    (routes : Option (List RouteDefinition)) : RouteLocation :=
  match routes with
  | none => location
  | some rs =>
    match findRouteByLocation location rs with
    | none => location
    | some matched => { location with meta := matched.meta, name := matched.name }

/-- Embeds `createNavigationDetailsWithMeta` (src/unnamed/part_000
lines 714-727). -/
def createNavigationDetailsWithMeta (fromLoc : Option RouteLocation)
    (toLoc : RouteLocation) (type : NavType) (source : NavSource)
    (routes : Option (List RouteDefinition)) : NavigationDetails :=
  { fromLoc := fromLoc.map (enrichLocationWithMeta · routes)
    toLoc := enrichLocationWithMeta toLoc routes
    type := type
    source := source }

/-- Embeds the params-resolution step shared by `initializeWithGuards` and
`updateLocation` (src/unnamed/part_000 lines 272-279 and 330-337): when a
route list is configured and a route matches, overwrite `params` with the
extracted parameters. -/
def resolveParams (location : RouteLocation)
    (routes : Option (List RouteDefinition)) : RouteLocation :=
  match routes with
  | none => location
  | some rs =>
    match findRouteByLocation location rs with
    | none => location
    | some matched =>
      { location with params := extractParams location.pathname matched.path }

/-- Embeds `createNavigationTarget` (src/unnamed/part_000 lines 654-674). -/
def createNavigationTarget (ev : EventPayload) (currentLocation : RouteLocation)
    (basePath : String) : RouteLocation :=
  match ev.pathname with
  | some p =>
    { pathname := if jsFalsy p then "/" else p
      search := ev.search.getD ""
      hash := ev.hash.getD ""
      params := []
      query :=
        match ev.search with
        | some s => if jsFalsy s then [] else queryFromEntries s
        | none => []
      meta := none
      name := none }
  | none =>
    match ev.url with
    | some u => if jsFalsy u then currentLocation else parseUrl u basePath
    | none => currentLocation
where
  /-- Models `Object.fromEntries(new URLSearchParams(event.search))`: a later
  value for a repeated key overwrites the earlier one in place. -/
  queryFromEntries (s : String) : List (String × QueryVal) :=
    (searchPairs s).foldl
      (fun acc kv =>
        if (acc.find? (fun e => e.1 = kv.1)).isSome then
          acc.map fun e => if e.1 = kv.1 then (e.1, QueryVal.one kv.2) else e
        else acc ++ [(kv.1, QueryVal.one kv.2)])
      []

/-- Embeds `getNavigationType` (src/unnamed/part_000 lines 676-695) for the
embedded events; `NAVIGATE` falls to the `default` branch. -/
def getNavigationType : Event → NavType
  | Event.NAVIGATE _ => NavType.push
  | Event.PUSH _ => NavType.push
  | Event.REPLACE _ => NavType.replace
  | Event.BACK => NavType.back
  | Event.FORWARD => NavType.forward

/-- The NavigationDetails the `setNavigating` action builds for an external
event (src/unnamed/part_000 lines 296-313). -/
def proposedDetails (P : Props) (e : Event) (c : Ctx) : NavigationDetails :=
  createNavigationDetailsWithMeta (some c.location)
    (createNavigationTarget e.payload c.location P.basePath)
    (getNavigationType e) NavSource.programmatic P.routes

/-- Embeds the `setNavigating` action (src/unnamed/part_000 lines 296-313). -/
def setNavigating (P : Props) (e : Event) (c : Ctx) : Ctx :=
  { c with navigating := true, pendingNavigation := some (proposedDetails P e c) }

/-- Embeds the `clearNavigating` action (src/unnamed/part_000 lines 315-318). -/
def clearNavigating (c : Ctx) : Ctx :=
  { c with navigating := false, pendingNavigation := none }

/-- Embeds the `updateLocation` action (src/unnamed/part_000 lines 320-342):
snapshot the enriched current location as `previousLocation`, then commit the
pending target with params resolved and metadata enrichment. -/
def updateLocation (P : Props) (c : Ctx) : Ctx :=
  match c.pendingNavigation with
  | none => c
  | some pendingNav =>
    { c with
        previousLocation := some (enrichLocationWithMeta c.location P.routes)
        location :=
          enrichLocationWithMeta (resolveParams pendingNav.toLoc P.routes) P.routes }

/-- Embeds the `updateHistory` action (src/unnamed/part_000 lines 344-376):
`push` truncates the stack after the cursor, appends and moves the cursor to
the new last index; `replace` overwrites at the cursor; every other type is
untouched by the switch. -/
def updateHistory (c : Ctx) : Ctx :=
  match c.pendingNavigation with
  | none => c
  | some pendingNav =>
    match pendingNav.type with
    | NavType.push =>
      let newStack := c.historyStack.take (c.historyIndex + 1) ++ [pendingNav.toLoc]
      { c with historyStack := newStack, historyIndex := newStack.length - 1 }
    | NavType.replace =>
      { c with historyStack := c.historyStack.set c.historyIndex pendingNav.toLoc }
    | _ => c

/-- Embeds the `goBack` action (src/unnamed/part_000 lines 378-393). -/
def goBack (P : Props) (c : Ctx) : Ctx :=
  if c.historyIndex > 0 then
    let i := c.historyIndex - 1
    let location := (c.historyStack.get? i).getD c.location
    { c with
        historyIndex := i
        pendingNavigation := some (createNavigationDetailsWithMeta
          (some c.location) location NavType.back NavSource.programmatic P.routes) }
  else c

/-- Embeds the `goForward` action (src/unnamed/part_000 lines 395-411). -/
def goForward (P : Props) (c : Ctx) : Ctx :=
  if c.historyIndex < c.historyStack.length - 1 then
    let i := c.historyIndex + 1
    let location := (c.historyStack.get? i).getD c.location
    { c with
        historyIndex := i
        pendingNavigation := some (createNavigationDetailsWithMeta
          (some c.location) location NavType.forward NavSource.programmatic P.routes) }
  else c

/-- The fixed placeholder NavigationDetails hard-coded by
`invokeNavigationError` (src/unnamed/part_000 lines 473-478). -/
def placeholderDetails : NavigationDetails :=
  { fromLoc := none
    toLoc := { pathname := "", search := "", hash := "", params := [], query := [],
               meta := none, name := none }
    type := NavType.push
    source := NavSource.programmatic }

/-- Embeds the `invokeNavigationStart` action (src/unnamed/part_000
lines 453-459): record the call when the observer is configured and a pending
navigation exists. -/
def invokeNavigationStart (P : Props) (s : MState) : MState :=
  match s.ctx.pendingNavigation with
  | some pendingNav =>
    if P.hasOnNavigationStart then { s with log := s.log ++ [ObsCall.start pendingNav] }
    else s
  | none => s

/-- Embeds the `invokeNavigationEnd` action (src/unnamed/part_000
lines 461-467). -/
def invokeNavigationEnd (P : Props) (s : MState) : MState :=
  match s.ctx.pendingNavigation with
  | some pendingNav =>
    if P.hasOnNavigationEnd then { s with log := s.log ++ [ObsCall.endNav pendingNav] }
    else s
  | none => s

/-- Embeds the `invokeOnNavigate` action (src/unnamed/part_000
lines 517-523). -/
def invokeOnNavigate (P : Props) (s : MState) : MState :=
  match s.ctx.pendingNavigation with
  | some pendingNav =>
    if P.hasOnNavigate then { s with log := s.log ++ [ObsCall.navigate pendingNav] }
    else s
  | none => s

/-- Embeds the `invokeNavigationError` action (src/unnamed/part_000
lines 469-481): when the observer is configured (the event's error is always
present on this path), it is invoked with the error and the fixed
`placeholderDetails`, never with the pending navigation's details. -/
def invokeNavigationError (P : Props) (msg : String) (s : MState) : MState :=
  if P.hasOnNavigationError then
    { s with log := s.log ++ [ObsCall.errorNav msg placeholderDetails] }
  else s

/-- The redirect NavigationDetails `invokeBeforeNavigate` substitutes when
the guard returns a string (src/unnamed/part_000 lines 495-506): the parsed
redirect target, enriched, with type `replace` and source `programmatic`. -/
def redirectDetails (P : Props) (fromLoc : RouteLocation) (url : String) :
    NavigationDetails :=
  createNavigationDetailsWithMeta (some fromLoc)
    (enrichLocationWithMeta (parseUrl url P.basePath) P.routes)
    NavType.replace NavSource.programmatic P.routes

/-- Embeds the `invokeBeforeNavigate` action (src/unnamed/part_000
lines 483-515), run on entry to `navigating`: evaluate the guard on the
pending navigation; `false` sends `NAVIGATION_ERROR` with the fixed
"Navigation prevented" error, a string replaces the pending navigation with a
`replace`-typed redirect and sends `NAVIGATION_COMPLETE`, anything else (or no
guard, or no pending navigation) sends `NAVIGATION_COMPLETE`.  The guard
invocation itself is recorded in the log. -/
def invokeBeforeNavigate (P : Props) (s : MState) : MState × SentEvent :=
  match P.onBeforeNavigate, s.ctx.pendingNavigation with
  | some g, some pendingNav =>
    let s := { s with log := s.log ++ [ObsCall.beforeNav pendingNav] }
    match g pendingNav with
    | GuardResult.deny => (s, SentEvent.errored "Navigation prevented")
    | GuardResult.redirect url =>
      ({ s with ctx := { s.ctx with
          pendingNavigation := some (redirectDetails P s.ctx.location url) } },
        SentEvent.complete)
    | GuardResult.allow => (s, SentEvent.complete)
  | _, _ => (s, SentEvent.complete)

/-- Embeds the `navigating` state's handling of the internally sent event
(src/unnamed/part_000 lines 151-166): `NAVIGATION_COMPLETE` commits (update
location, history, browser URL, scroll, end/navigate observers, clear) and
returns to `idle`; `NAVIGATION_ERROR` clears and notifies the error observer,
entering `error`.  `updateBrowserHistory` and `scrollToTopEffect` touch only
the browser window and leave the modelled context unchanged. -/
def navigatingOn (P : Props) (s : MState) : SentEvent → MState
  | SentEvent.complete =>
    let c := updateHistory (updateLocation P s.ctx)
    let s := { s with ctx := c }
    let s := invokeNavigationEnd P s
    let s := invokeOnNavigate P s
    { s with ctx := clearNavigating s.ctx, st := SName.idle }
  | SentEvent.errored msg =>
    let s := { s with ctx := clearNavigating s.ctx }
    let s := invokeNavigationError P msg s
    { s with st := SName.error }

/-- Entering the `navigating` state: its entry action `invokeBeforeNavigate`
runs and synchronously sends `NAVIGATION_COMPLETE` or `NAVIGATION_ERROR`,
which the `navigating` state then handles. -/
def enterNavigating (P : Props) (s : MState) : MState :=
  let (s, sent) := invokeBeforeNavigate P { s with st := SName.navigating }
  navigatingOn P s sent

/-- Embeds the shared event table of the `idle` and `error` states
(src/unnamed/part_000 lines 109-148 and 168-197): `NAVIGATE`, `PUSH` and
`REPLACE` start a navigation unconditionally; `BACK`/`FORWARD` start one only
under the `canGoBack`/`canGoForward` guards (otherwise the event is a no-op),
running `goBack`/`goForward` after `invokeNavigationStart`. -/
def stepIdle (P : Props) (s : MState) (e : Event) : MState :=
  match e with
  | Event.NAVIGATE _ | Event.PUSH _ | Event.REPLACE _ =>
    let s := { s with ctx := setNavigating P e s.ctx }
    let s := invokeNavigationStart P s
    enterNavigating P s
  | Event.BACK =>
    if s.ctx.historyIndex > 0 then
      let s := { s with ctx := setNavigating P e s.ctx }
      let s := invokeNavigationStart P s
      let s := { s with ctx := goBack P s.ctx }
      enterNavigating P s
    else s
  | Event.FORWARD =>
    if s.ctx.historyIndex < s.ctx.historyStack.length - 1 then
      let s := { s with ctx := setNavigating P e s.ctx }
      let s := invokeNavigationStart P s
      let s := { s with ctx := goForward P s.ctx }
      enterNavigating P s
    else s

/-- One external-event step of the machine.  `initializing` handles no
external events; in `navigating` a re-entrant `NAVIGATE` overrides the
pending navigation in place (src/unnamed/part_000 lines 162-164), other
events are ignored. -/
def step (P : Props) (s : MState) (e : Event) : MState :=
  match s.st with
  | SName.idle => stepIdle P s e
  | SName.error => stepIdle P s e
  | SName.navigating =>
    match e with
    | Event.NAVIGATE _ =>
      let s := { s with ctx := setNavigating P e s.ctx }
      invokeNavigationStart P s
    | _ => s
  | SName.initializing => s

/-- Embeds `getInitialLocation` (src/unnamed/part_000 lines 625-652),
server-side branch: an explicit partial initial location is completed with
root defaults; otherwise the root location. -/
def getInitialLocation (initialLocation : Option PartialLocation) : RouteLocation :=
  match initialLocation with
  | some il =>
    { pathname := il.pathname.getD "/"
      search := il.search.getD ""
      hash := il.hash.getD ""
      params := il.params.getD []
      query := il.query.getD []
      meta := il.meta
      name := il.name }
  | none =>
    { pathname := "/", search := "", hash := "", params := [], query := [],
      meta := none, name := none }

/-- The NavigationDetails built by the `initializeWithGuards` entry action
(src/unnamed/part_000 lines 265-294), server-side branch (`currentUrl` is
`/`): the parsed current address with params resolved, `from: null`,
`type: initial`, `source: browser`. -/
def initialDetails (P : Props) : NavigationDetails :=
  createNavigationDetailsWithMeta none
    (resolveParams (parseUrl "/" P.basePath) P.routes)
    NavType.initial NavSource.browser P.routes

/-- Machine construction: the initial context (src/unnamed/part_000
lines 26-52) followed by the `initializeWithGuards` entry action, which
stores `initialDetails` as the pending navigation and marks the context
initialized.  The machine starts in `initializing`. -/
def initMachine (P : Props) : MState :=
  let initialLocation := getInitialLocation P.initialLocation
  { st := SName.initializing
    ctx :=
      { location := initialLocation
        previousLocation := none
        navigating := false
        pendingNavigation := some (initialDetails P)
        initDone := true
        historyStack := [initialLocation]
        historyIndex := 0 }
    log := [] }

/-- Embeds the `initializing` state's handling of the internally sent event
(src/unnamed/part_000 lines 95-107): `NAVIGATION_COMPLETE` commits and enters
`idle`; `NAVIGATION_ERROR` clears, notifies the error observer and enters
`error`. -/
def initializingOn (P : Props) (s : MState) : SentEvent → MState
  | SentEvent.complete =>
    let c := updateHistory (updateLocation P s.ctx)
    let s := { s with ctx := c }
    let s := invokeNavigationEnd P s
    let s := invokeOnNavigate P s
    { s with ctx := clearNavigating s.ctx, st := SName.idle }
  | SentEvent.errored msg =>
    let s := { s with ctx := clearNavigating s.ctx }
    let s := invokeNavigationError P msg s
    { s with st := SName.error }

/-- The fallback NavigationDetails substituted when the guard blocks the
initial transition (src/unnamed/part_000 lines 549-563): the base-path root
target, with `from: null` and type `replace`. -/
def fallbackDetails (P : Props) : NavigationDetails :=
  createNavigationDetailsWithMeta none
    (enrichLocationWithMeta (parseUrl "/" P.basePath) P.routes)
    NavType.replace NavSource.programmatic P.routes

/-- The redirect NavigationDetails substituted when the guard redirects the
initial transition (src/unnamed/part_000 lines 564-578). -/
def initialRedirectDetails (P : Props) (url : String) : NavigationDetails :=
  createNavigationDetailsWithMeta none
    (enrichLocationWithMeta (parseUrl url P.basePath) P.routes)
    NavType.replace NavSource.programmatic P.routes

/-- Embeds the `invokeBeforeNavigateForInitial` entry action of
`initializing` (src/unnamed/part_000 lines 539-588), run as the deferred
continuation after construction: a `false` guard result substitutes a
fallback pending navigation at the base path (`parseUrl "/"`), a string
substitutes the redirect target, and in every case `NAVIGATION_COMPLETE` is
sent — this action never sends `NAVIGATION_ERROR`. -/
def runInitialGuard (P : Props) (s : MState) : MState :=
  match P.onBeforeNavigate, s.ctx.pendingNavigation with
  | some g, some pendingNav =>
    let s := { s with log := s.log ++ [ObsCall.beforeNav pendingNav] }
    match g pendingNav with
    | GuardResult.deny =>
      initializingOn P
        { s with ctx := { s.ctx with pendingNavigation := some (fallbackDetails P) } }
        SentEvent.complete
    | GuardResult.redirect url =>
      initializingOn P
        { s with ctx := { s.ctx with
            pendingNavigation := some (initialRedirectDetails P url) } }
        SentEvent.complete
    | GuardResult.allow => initializingOn P s SentEvent.complete
  | _, _ => initializingOn P s SentEvent.complete

/-- A minimal concrete configuration, used to instantiate theorems. -/
def sampleProps : Props :=
  { basePath := "/"
    hashRouting := false
    scrollToTop := true
    routes := none
    initialLocation := none
    onBeforeNavigate := none
    hasOnNavigate := false
    hasOnNavigationStart := false
    hasOnNavigationEnd := false
    hasOnNavigationError := false }

/-! ## Theorems -/

/-- The non-exact-mode relation claim C1 asserts, stated from the spec's
words: the current pathname begins with the target pathname as a
segment-or-full prefix, i.e. either equals it or extends it at a `/` segment
boundary. -/
def segmentOrFullPre (targetPathname currentPathname : String) : Bool :=
  currentPathname = targetPathname ||
    jsStartsWith currentPathname (targetPathname ++ "/")

/-- The `segmentOrFullPre` boundary test is the existence of a proper
extension after a `/`. -/
theorem segmentOrFullPre_iff (t c : String) :
    segmentOrFullPre t c = true ↔
      c = t ∨ ∃ rest, c.data = t.data ++ '/' :: rest := by
  unfold segmentOrFullPre jsStartsWith
  simp only [Bool.or_eq_true, decide_eq_true_iff, List.isPrefixOf_iff_prefix]
  constructor
  · rintro (h | ⟨rest, hrest⟩)
    · exact Or.inl h
    · exact Or.inr ⟨rest, by simpa using hrest.symm⟩
  · rintro (h | ⟨rest, hrest⟩)
    · exact Or.inl h
    · exact Or.inr ⟨rest, by simpa using hrest.symm⟩

/-- Claim C1, counterexample: with current pathname `/users2` and target
pathname `/users`, non-exact `isActive` returns `true` although `/users2`
neither equals `/users` nor extends it at a `/` segment boundary, so
non-exact mode is not the claimed segment-or-full-prefix test. -/
theorem isActive_c1_counterexample :
    isActive "/users2" "/users" false = true ∧
      segmentOrFullPre "/users" "/users2" = false := by
  decide

/-- Claim C1, amended: exact mode returns true iff the current pathname
equals the target pathname (an empty target pathname defaulting to `/`);
non-exact mode returns true iff the current pathname begins with the
(defaulted) target pathname as a plain string prefix, even at a non-segment
boundary. -/
theorem isActive_c1_amended (current target : String) :
    (isActive current target true = true ↔
      current = defaultedPathname target) ∧
    (isActive current target false = true ↔
      (defaultedPathname target).data <+: current.data) := by
  unfold isActive jsStartsWith
  constructor
  · simp
  · simp [List.isPrefixOf_iff_prefix]

/-- Claim C2: the code contradicts the claimed round-trip.  With base path
`/app` and a location whose pathname is `/users`, `createUrl` concatenates
the base path and the slash-stripped pathname without a separator, producing
`/appusers`; `parseUrl` then strips `/app` and returns pathname `users`, not
the original `/users`. -/
theorem parseUrl_createUrl_c2_failing :
    createUrl "/users" "" "" "/app" = "/appusers" ∧
      (parseUrl (createUrl "/users" "" "" "/app") "/app").pathname = "users" ∧
      ("users" : String) ≠ "/users" := by
  decide

/-- Claim C5, counterexample: the pending NavigationDetails stored by
`initializeWithGuards` at construction carries `source: browser` (the literal
passed at src/unnamed/part_000 line 286), not `source: initial` — the code's
`source` union does not even contain an `initial` member. -/
theorem initial_source_c5_counterexample :
    ((initMachine sampleProps).ctx.pendingNavigation.map
        fun d => asSpecSource d.source) = some SpecNavSource.browser ∧
      SpecNavSource.browser ≠ SpecNavSource.initial :=
  ⟨rfl, by decide⟩

/-- Claim C5, amended: for every configuration, the pending NavigationDetails
stored for the initial-load transition at machine construction has `from`
null and `type` initial, but `source` is `browser`, not `initial`. -/
theorem initial_pending_c5_amended (P : Props) :
    ∃ d, (initMachine P).ctx.pendingNavigation = some d ∧
      d.fromLoc = none ∧ d.type = NavType.initial ∧ d.source = NavSource.browser :=
  ⟨initialDetails P, rfl, rfl, rfl, rfl⟩

/-- The conclusion of claim C9, as a predicate over a configuration, a
context and its pending navigation: `push` truncates to the cursor, appends
and moves the cursor to the new last index; `replace` overwrites at the
cursor, keeping length and cursor; `goBack`/`goForward` only move the cursor
within bounds and never mutate the stack; every operation preserves
`historyIndex < historyStack.length` (hence a nonempty stack), and the stack
is nonempty with a valid cursor at construction. -/
def historyC9Conclusion (P : Props) (c : Ctx) (pendingNav : NavigationDetails) : Prop :=
  (pendingNav.type = NavType.push →
    (updateHistory c).historyStack
        = c.historyStack.take (c.historyIndex + 1) ++ [pendingNav.toLoc] ∧
    (updateHistory c).historyIndex = c.historyIndex + 1 ∧
    (updateHistory c).historyIndex = (updateHistory c).historyStack.length - 1 ∧
    (updateHistory c).historyIndex < (updateHistory c).historyStack.length) ∧
  (pendingNav.type = NavType.replace →
    (updateHistory c).historyStack = c.historyStack.set c.historyIndex pendingNav.toLoc ∧
    (updateHistory c).historyStack.length = c.historyStack.length ∧
    (updateHistory c).historyIndex = c.historyIndex ∧
    (updateHistory c).historyIndex < (updateHistory c).historyStack.length) ∧
  ((goBack P c).historyStack = c.historyStack ∧
    (goBack P c).historyIndex
        = (if 0 < c.historyIndex then c.historyIndex - 1 else c.historyIndex) ∧
    (goBack P c).historyIndex < (goBack P c).historyStack.length) ∧
  ((goForward P c).historyStack = c.historyStack ∧
    (goForward P c).historyIndex
        = (if c.historyIndex < c.historyStack.length - 1 then c.historyIndex + 1
           else c.historyIndex) ∧
    (goForward P c).historyIndex < (goForward P c).historyStack.length) ∧
  1 ≤ (updateHistory c).historyStack.length ∧
  ((initMachine P).ctx.historyIndex < (initMachine P).ctx.historyStack.length ∧
    1 ≤ (initMachine P).ctx.historyStack.length)

/-- Claim C9: every history-stack operation preserves the invariant that the
cursor is a valid index into a nonempty stack; `push` truncates to the cursor
inclusive, appends and advances the cursor to the new last index; `replace`
overwrites at the cursor without changing length or cursor; `goBack` and
`goForward` only move the cursor within existing bounds and never mutate the
stack. -/
theorem history_ops_c9 (P : Props) (c : Ctx) (pendingNav : NavigationDetails)
    (hp : c.pendingNavigation = some pendingNav)
    (hinv : c.historyIndex < c.historyStack.length) :
    historyC9Conclusion P c pendingNav := by
  unfold historyC9Conclusion
  refine ⟨?_, ?_, ?_, ?_, ?_, ?_⟩
  · intro ht
    have hstack : (updateHistory c).historyStack
        = c.historyStack.take (c.historyIndex + 1) ++ [pendingNav.toLoc] := by
      simp [updateHistory, hp, ht]
    have hlen : (updateHistory c).historyStack.length = c.historyIndex + 2 := by
      rw [hstack]
      simp [List.length_take]
      omega
    have hidx : (updateHistory c).historyIndex = c.historyIndex + 1 := by
      simp [updateHistory, hp, ht, List.length_take]
      omega
    exact ⟨hstack, hidx, by omega, by omega⟩
  · intro ht
    have hstack : (updateHistory c).historyStack
        = c.historyStack.set c.historyIndex pendingNav.toLoc := by
      simp [updateHistory, hp, ht]
    have hidx : (updateHistory c).historyIndex = c.historyIndex := by
      simp [updateHistory, hp, ht]
    have hlen : (updateHistory c).historyStack.length = c.historyStack.length := by
      rw [hstack]
      simp
    exact ⟨hstack, hlen, hidx, by omega⟩
  · refine ⟨?_, ?_, ?_⟩ <;>
      by_cases h : 0 < c.historyIndex <;>
        simp [goBack, h] <;> omega
  · refine ⟨?_, ?_, ?_⟩ <;>
      by_cases h : c.historyIndex < c.historyStack.length - 1 <;>
        simp [goForward, h] <;> omega
  · cases htype : pendingNav.type <;>
      simp [updateHistory, hp, htype, List.length_take] <;> omega
  · constructor <;> simp [initMachine]

/-- Witness for claim C9 at a concrete context: two locations on the stack,
cursor at the end, a pending push. -/
theorem history_ops_c9_witness :
    historyC9Conclusion sampleProps
      { location := { pathname := "/a", search := "", hash := "", params := [],
                      query := [], meta := none, name := none }
        previousLocation := none
        navigating := true
        pendingNavigation := some
          { fromLoc := none
            toLoc := { pathname := "/b", search := "", hash := "", params := [],
                       query := [], meta := none, name := none }
            type := NavType.push
            source := NavSource.programmatic }
        initDone := true
        historyStack := [{ pathname := "/a", search := "", hash := "", params := [],
                           query := [], meta := none, name := none }]
        historyIndex := 0 }
      { fromLoc := none
        toLoc := { pathname := "/b", search := "", hash := "", params := [],
                   query := [], meta := none, name := none }
        type := NavType.push
        source := NavSource.programmatic } :=
  history_ops_c9 sampleProps _ _ rfl (by decide)

/-! ### Projection lemmas for the machine actions -/

theorem invokeNavigationStart_ctx (P : Props) (s : MState) :
    (invokeNavigationStart P s).ctx = s.ctx := by
  unfold invokeNavigationStart
  split
  · split <;> rfl
  · rfl

theorem invokeNavigationEnd_ctx (P : Props) (s : MState) :
    (invokeNavigationEnd P s).ctx = s.ctx := by
  unfold invokeNavigationEnd
  split
  · split <;> rfl
  · rfl

theorem invokeOnNavigate_ctx (P : Props) (s : MState) :
    (invokeOnNavigate P s).ctx = s.ctx := by
  unfold invokeOnNavigate
  split
  · split <;> rfl
  · rfl

theorem invokeNavigationError_ctx (P : Props) (msg : String) (s : MState) :
    (invokeNavigationError P msg s).ctx = s.ctx := by
  unfold invokeNavigationError
  split <;> rfl

theorem invokeNavigationEnd_log_of (P : Props) (s : MState) (d : NavigationDetails)
    (hp : s.ctx.pendingNavigation = some d) (h : P.hasOnNavigationEnd = true) :
    (invokeNavigationEnd P s).log = s.log ++ [ObsCall.endNav d] := by
  unfold invokeNavigationEnd
  rw [hp]
  simp [h]

theorem invokeNavigationEnd_log_append (P : Props) (s : MState) :
    ∃ t, (invokeNavigationEnd P s).log = s.log ++ t := by
  unfold invokeNavigationEnd
  cases s.ctx.pendingNavigation with
  | none => exact ⟨[], by simp⟩
  | some d =>
    by_cases h : P.hasOnNavigationEnd = true
    · exact ⟨[ObsCall.endNav d], by simp [h]⟩
    · exact ⟨[], by simp [h]⟩

theorem invokeOnNavigate_log_append (P : Props) (s : MState) :
    ∃ t, (invokeOnNavigate P s).log = s.log ++ t := by
  unfold invokeOnNavigate
  cases s.ctx.pendingNavigation with
  | none => exact ⟨[], by simp⟩
  | some d =>
    by_cases h : P.hasOnNavigate = true
    · exact ⟨[ObsCall.navigate d], by simp [h]⟩
    · exact ⟨[], by simp [h]⟩

theorem enrichLocationWithMeta_pathname (l : RouteLocation)
    (routes : Option (List RouteDefinition)) :
    (enrichLocationWithMeta l routes).pathname = l.pathname := by
  unfold enrichLocationWithMeta
  cases routes with
  | none => rfl
  | some rs => cases h : findRouteByLocation l rs <;> simp [h]

theorem resolveParams_pathname (l : RouteLocation)
    (routes : Option (List RouteDefinition)) :
    (resolveParams l routes).pathname = l.pathname := by
  unfold resolveParams
  cases routes with
  | none => rfl
  | some rs => cases h : findRouteByLocation l rs <;> simp [h]

theorem updateHistory_location (c : Ctx) :
    (updateHistory c).location = c.location := by
  unfold updateHistory
  cases c.pendingNavigation with
  | none => rfl
  | some d => cases h : d.type <;> simp [h]

theorem updateLocation_location_of (P : Props) (c : Ctx) (d : NavigationDetails)
    (hp : c.pendingNavigation = some d) :
    (updateLocation P c).location
      = enrichLocationWithMeta (resolveParams d.toLoc P.routes) P.routes := by
  unfold updateLocation
  rw [hp]

theorem updateLocation_pending (P : Props) (c : Ctx) :
    (updateLocation P c).pendingNavigation = c.pendingNavigation := by
  unfold updateLocation
  cases hc : c.pendingNavigation <;> simp [hc]

theorem updateHistory_pending (c : Ctx) :
    (updateHistory c).pendingNavigation = c.pendingNavigation := by
  unfold updateHistory
  cases hc : c.pendingNavigation with
  | none => simp [hc]
  | some d => cases h : d.type <;> simp [hc, h]

theorem urlDecompose_fst_ne (url : String) : (urlDecompose url).1 ≠ "" := by
  intro hcontra
  have hdata := congrArg String.data hcontra
  simp only [urlDecompose] at hdata
  split at hdata
  · rename_i h
    rw [hdata] at h
    simp at h
  · simp at hdata

theorem parseUrl_pathname_ne (url basePath : String) :
    (parseUrl url basePath).pathname ≠ "" := by
  show (if _ then _ else _) ≠ ""
  split_ifs with h1 h2
  · simp [String.ext_iff]
  · simpa [jsFalsy] using h2
  · exact urlDecompose_fst_ne url

/-- The pathname `parseUrl` extracts from the root URL `/` is `/` for every
base path: a base path other than `/` is either not a prefix of `/` or is the
empty string, whose stripping leaves `/` intact. -/
theorem parseUrl_root (basePath : String) : (parseUrl "/" basePath).pathname = "/" := by
  unfold parseUrl
  dsimp only
  have hdec : (urlDecompose "/").1 = "/" := rfl
  split_ifs with h1 h2
  · rfl
  · obtain ⟨hne, hpre⟩ := h1
    have hp : basePath.data <+: ("/" : String).data := by
      have := hpre
      rw [hdec] at this
      simpa [jsStartsWith, List.isPrefixOf_iff_prefix] using this
    have hbp : basePath.data = [] := by
      rcases hp with ⟨t, ht⟩
      cases hd : basePath.data with
      | nil => rfl
      | cons a as =>
        rw [hd] at ht
        simp at ht
        obtain ⟨ha, has, hts⟩ := ht
        exact absurd (String.ext (by simp [hd, ha, has])) hne
    have hlen : basePath.length = 0 := by
      show basePath.data.length = 0
      simp [hbp]
    rw [hdec] at h2 ⊢
    simp [jsSliceFrom, hlen, jsFalsy] at h2 ⊢
  · exact hdec

/-- The target location the machine proposes for an external event always has
a nonempty pathname (given the current location has one): explicit pathnames
default to `/`, URL targets go through `parseUrl`, and the remaining case is
the current location itself. -/
theorem proposedDetails_pathname_ne (P : Props) (e : Event) (c : Ctx)
    (h : c.location.pathname ≠ "") :
    (proposedDetails P e c).toLoc.pathname ≠ "" := by
  unfold proposedDetails createNavigationDetailsWithMeta
  dsimp only
  rw [enrichLocationWithMeta_pathname]
  unfold createNavigationTarget
  cases hp : e.payload.pathname with
  | some p =>
    by_cases hf : jsFalsy p = true
    · simp [hp, hf, String.ext_iff]
    · have hne : p ≠ "" := by simpa [jsFalsy] using hf
      simp [hp, jsFalsy, hne]
  | none =>
    cases hu : e.payload.url with
    | some u =>
      by_cases hf : jsFalsy u = true
      · simpa [hp, hu, hf] using h
      · simpa [hp, hu, hf] using parseUrl_pathname_ne u P.basePath
    | none => simpa [hp, hu] using h

/-- Claim C10: whenever the machine's `invokeNavigationError` action notifies
the error observer, the NavigationDetails it passes is exactly the fixed
placeholder value (null `from`, an all-empty `to` location, type `push`,
source `programmatic`), never the pending NavigationDetails of the blocked
transition — which always differs from the placeholder, since every
machine-built target has a nonempty pathname while the placeholder's is
empty. -/
theorem navigation_error_details_c10 :
    (∀ (P : Props) (msg : String) (s : MState),
      (invokeNavigationError P msg s).log
          = s.log ++ [ObsCall.errorNav msg placeholderDetails] ∨
        (invokeNavigationError P msg s).log = s.log) ∧
    placeholderDetails.fromLoc = none ∧
    placeholderDetails.toLoc
      = { pathname := "", search := "", hash := "", params := [], query := [],
          meta := none, name := none } ∧
    placeholderDetails.type = NavType.push ∧
    placeholderDetails.source = NavSource.programmatic ∧
    (∀ (P : Props) (e : Event) (c : Ctx), c.location.pathname ≠ "" →
      proposedDetails P e c ≠ placeholderDetails) := by
  refine ⟨?_, rfl, rfl, rfl, rfl, ?_⟩
  · intro P msg s
    unfold invokeNavigationError
    by_cases h : P.hasOnNavigationError = true
    · exact Or.inl (by simp [h])
    · exact Or.inr (by simp [h])
  · intro P e c h heq
    exact proposedDetails_pathname_ne P e c h (by rw [heq]; rfl)

/-- Witness for claim C10 at concrete inputs: the error observer appends
exactly the placeholder entry, and a concrete proposed navigation differs
from the placeholder. -/
theorem navigation_error_details_c10_witness :
    ((invokeNavigationError sampleProps "boom" ⟨SName.idle, (initMachine sampleProps).ctx, []⟩).log
        = [] ++ [ObsCall.errorNav "boom" placeholderDetails] ∨
      (invokeNavigationError sampleProps "boom"
        ⟨SName.idle, (initMachine sampleProps).ctx, []⟩).log = []) ∧
    proposedDetails sampleProps Event.BACK (initMachine sampleProps).ctx
      ≠ placeholderDetails :=
  ⟨navigation_error_details_c10.1 sampleProps "boom" _,
    navigation_error_details_c10.2.2.2.2.2 sampleProps Event.BACK
      (initMachine sampleProps).ctx (by decide)⟩

/-- Entering `navigating` when the guard denies the pending navigation: the
machine lands in `error`, the context is merely cleared of its in-flight
markers, and the log grows by the guard call and (when the error observer is
configured) the fixed "Navigation prevented" entry. -/
theorem enterNavigating_deny (P : Props) (s : MState)
    (g : NavigationDetails → GuardResult) (d : NavigationDetails)
    (hg : P.onBeforeNavigate = some g)
    (hp : s.ctx.pendingNavigation = some d)
    (hd : g d = GuardResult.deny) :
    (enterNavigating P s).st = SName.error ∧
    (enterNavigating P s).ctx = clearNavigating s.ctx ∧
    (enterNavigating P s).log
      = s.log ++ [ObsCall.beforeNav d] ++
        (if P.hasOnNavigationError = true
         then [ObsCall.errorNav "Navigation prevented" placeholderDetails] else []) := by
  unfold enterNavigating invokeBeforeNavigate
  simp only [hg, hp, hd]
  unfold navigatingOn invokeNavigationError
  by_cases herr : P.hasOnNavigationError = true <;> simp [herr]

/-- From `idle`, each of `NAVIGATE`, `PUSH` and `REPLACE` runs the start
sequence and enters `navigating`. -/
theorem stepIdle_prog_eq (P : Props) (c : Ctx) (L : List ObsCall) (e : Event)
    (he : (∃ pl, e = Event.NAVIGATE pl) ∨ (∃ pl, e = Event.PUSH pl) ∨
      (∃ pl, e = Event.REPLACE pl)) :
    step P ⟨SName.idle, c, L⟩ e
      = enterNavigating P
          (invokeNavigationStart P ⟨SName.idle, setNavigating P e c, L⟩) := by
  rcases he with ⟨pl, rfl⟩ | ⟨pl, rfl⟩ | ⟨pl, rfl⟩ <;> rfl

/-- The NavigationDetails the `goBack` action stages as pending
(src/unnamed/part_000 lines 378-393), read off the starting context. -/
def backDetails (P : Props) (c : Ctx) : NavigationDetails :=
  createNavigationDetailsWithMeta (some c.location)
    ((c.historyStack.get? (c.historyIndex - 1)).getD c.location)
    NavType.back NavSource.programmatic P.routes

/-- The NavigationDetails the `goForward` action stages as pending
(src/unnamed/part_000 lines 395-411), read off the starting context. -/
def forwardDetails (P : Props) (c : Ctx) : NavigationDetails :=
  createNavigationDetailsWithMeta (some c.location)
    ((c.historyStack.get? (c.historyIndex + 1)).getD c.location)
    NavType.forward NavSource.programmatic P.routes

/-- The pending NavigationDetails in force when the guard pipeline evaluates
an external event raised in context `c`: the proposed details for
`NAVIGATE`/`PUSH`/`REPLACE`, the staged cursor-move details for a `BACK` or
`FORWARD` that passes its `canGoBack`/`canGoForward` guard, and none when the
cursor-move event is a no-op (the transition never starts). -/
def pendingAtGuard (P : Props) (e : Event) (c : Ctx) : Option NavigationDetails :=
  match e with
  | Event.BACK =>
    if 0 < c.historyIndex then some (backDetails P c) else none
  | Event.FORWARD =>
    if c.historyIndex < c.historyStack.length - 1 then some (forwardDetails P c)
    else none
  | _ => some (proposedDetails P e c)

/-- The conclusion of claim C6: after a blocked non-initial transition
(started from `idle` or, identically, from `error`) the machine is in
`error`, the committed location is untouched, the pending navigation and the
`navigating` flag are cleared, and the error observer has been invoked with
the fixed "Navigation prevented" error. -/
def blockedC6Conclusion (P : Props) (c : Ctx) (L : List ObsCall) (e : Event)
    (s0 : SName) : Prop :=
  (step P ⟨s0, c, L⟩ e).st = SName.error ∧
  (step P ⟨s0, c, L⟩ e).ctx.location = c.location ∧
  (step P ⟨s0, c, L⟩ e).ctx.pendingNavigation = none ∧
  (step P ⟨s0, c, L⟩ e).ctx.navigating = false ∧
  ObsCall.errorNav "Navigation prevented" placeholderDetails
    ∈ (step P ⟨s0, c, L⟩ e).log

/-- Claim C6: for every non-initial transition (any external event, started
from `idle` or from `error`) whose guard returns `false`, the machine
transitions to `error`, the error observer is invoked with an error carrying
the fixed "Navigation prevented" message, and the committed location remains
exactly the last successfully committed one — no partial commit of the
blocked target occurs. -/
theorem guard_block_error_c6 (P : Props) (c : Ctx) (L : List ObsCall) (e : Event)
    (s0 : SName) (g : NavigationDetails → GuardResult) (d : NavigationDetails)
    (hs0 : s0 = SName.idle ∨ s0 = SName.error)
    (hg : P.onBeforeNavigate = some g)
    (hpend : pendingAtGuard P e c = some d)
    (hdeny : g d = GuardResult.deny)
    (herr : P.hasOnNavigationError = true) :
    blockedC6Conclusion P c L e s0 := by
  unfold blockedC6Conclusion
  have hdisp : step P ⟨s0, c, L⟩ e = stepIdle P ⟨s0, c, L⟩ e := by
    rcases hs0 with rfl | rfl <;> rfl
  rw [hdisp]
  cases e with
  | BACK =>
    by_cases h : 0 < c.historyIndex
    · have hd : d = backDetails P c := by
        have := hpend
        simp [pendingAtGuard, h] at this
        exact this.symm
      subst hd
      have hstep : stepIdle P ⟨s0, c, L⟩ Event.BACK
          = enterNavigating P
              { st := (invokeNavigationStart P
                  ⟨s0, setNavigating P Event.BACK c, L⟩).st
                ctx := goBack P (invokeNavigationStart P
                  ⟨s0, setNavigating P Event.BACK c, L⟩).ctx
                log := (invokeNavigationStart P
                  ⟨s0, setNavigating P Event.BACK c, L⟩).log } := by
        show (if 0 < c.historyIndex then _ else _) = _
        rw [if_pos h]
      rw [hstep]
      have hctx2 : (invokeNavigationStart P
          ⟨s0, setNavigating P Event.BACK c, L⟩).ctx = setNavigating P Event.BACK c :=
        invokeNavigationStart_ctx P _
      have hgb : (goBack P (setNavigating P Event.BACK c)).pendingNavigation
          = some (backDetails P c) := by
        unfold goBack setNavigating backDetails
        simp [h]
      have hgl : (goBack P (setNavigating P Event.BACK c)).location = c.location := by
        unfold goBack setNavigating
        simp [h]
      obtain ⟨hst, hctx, hlog⟩ := enterNavigating_deny P
        { st := (invokeNavigationStart P
            ⟨s0, setNavigating P Event.BACK c, L⟩).st
          ctx := goBack P (invokeNavigationStart P
            ⟨s0, setNavigating P Event.BACK c, L⟩).ctx
          log := (invokeNavigationStart P
            ⟨s0, setNavigating P Event.BACK c, L⟩).log }
        g (backDetails P c) hg
        (by show (goBack P (invokeNavigationStart P
              ⟨s0, setNavigating P Event.BACK c, L⟩).ctx).pendingNavigation = _
            rw [hctx2]
            exact hgb)
        hdeny
      refine ⟨hst, ?_, ?_, ?_, ?_⟩
      · rw [hctx]
        show (goBack P (invokeNavigationStart P
            ⟨s0, setNavigating P Event.BACK c, L⟩).ctx).location = c.location
        rw [hctx2]
        exact hgl
      · rw [hctx]
        rfl
      · rw [hctx]
        rfl
      · rw [hlog]
        simp [herr]
    · exfalso
      simp [pendingAtGuard, h] at hpend
  | FORWARD =>
    by_cases h : c.historyIndex < c.historyStack.length - 1
    · have hd : d = forwardDetails P c := by
        have := hpend
        simp [pendingAtGuard, h] at this
        exact this.symm
      subst hd
      have hstep : stepIdle P ⟨s0, c, L⟩ Event.FORWARD
          = enterNavigating P
              { st := (invokeNavigationStart P
                  ⟨s0, setNavigating P Event.FORWARD c, L⟩).st
                ctx := goForward P (invokeNavigationStart P
                  ⟨s0, setNavigating P Event.FORWARD c, L⟩).ctx
                log := (invokeNavigationStart P
                  ⟨s0, setNavigating P Event.FORWARD c, L⟩).log } := by
        show (if c.historyIndex < c.historyStack.length - 1 then _ else _) = _
        rw [if_pos h]
      rw [hstep]
      have hctx2 : (invokeNavigationStart P
          ⟨s0, setNavigating P Event.FORWARD c, L⟩).ctx
          = setNavigating P Event.FORWARD c :=
        invokeNavigationStart_ctx P _
      have hgb : (goForward P (setNavigating P Event.FORWARD c)).pendingNavigation
          = some (forwardDetails P c) := by
        unfold goForward setNavigating forwardDetails
        simp [h]
      have hgl : (goForward P (setNavigating P Event.FORWARD c)).location
          = c.location := by
        unfold goForward setNavigating
        simp [h]
      obtain ⟨hst, hctx, hlog⟩ := enterNavigating_deny P
        { st := (invokeNavigationStart P
            ⟨s0, setNavigating P Event.FORWARD c, L⟩).st
          ctx := goForward P (invokeNavigationStart P
            ⟨s0, setNavigating P Event.FORWARD c, L⟩).ctx
          log := (invokeNavigationStart P
            ⟨s0, setNavigating P Event.FORWARD c, L⟩).log }
        g (forwardDetails P c) hg
        (by show (goForward P (invokeNavigationStart P
              ⟨s0, setNavigating P Event.FORWARD c, L⟩).ctx).pendingNavigation = _
            rw [hctx2]
            exact hgb)
        hdeny
      refine ⟨hst, ?_, ?_, ?_, ?_⟩
      · rw [hctx]
        show (goForward P (invokeNavigationStart P
            ⟨s0, setNavigating P Event.FORWARD c, L⟩).ctx).location = c.location
        rw [hctx2]
        exact hgl
      · rw [hctx]
        rfl
      · rw [hctx]
        rfl
      · rw [hlog]
        simp [herr]
    · exfalso
      simp [pendingAtGuard, h] at hpend
  | NAVIGATE pl =>
    have hd : d = proposedDetails P (Event.NAVIGATE pl) c := by
      have := hpend
      simp [pendingAtGuard] at this
      exact this.symm
    subst hd
    have hstep : stepIdle P ⟨s0, c, L⟩ (Event.NAVIGATE pl)
        = enterNavigating P (invokeNavigationStart P
            ⟨s0, setNavigating P (Event.NAVIGATE pl) c, L⟩) := rfl
    rw [hstep]
    have hctx2 : (invokeNavigationStart P
        ⟨s0, setNavigating P (Event.NAVIGATE pl) c, L⟩).ctx
        = setNavigating P (Event.NAVIGATE pl) c :=
      invokeNavigationStart_ctx P _
    obtain ⟨hst, hctx, hlog⟩ := enterNavigating_deny P
      (invokeNavigationStart P ⟨s0, setNavigating P (Event.NAVIGATE pl) c, L⟩) g
      (proposedDetails P (Event.NAVIGATE pl) c) hg (by rw [hctx2]; rfl) hdeny
    refine ⟨hst, ?_, ?_, ?_, ?_⟩
    · rw [hctx, hctx2]
      rfl
    · rw [hctx, hctx2]
      rfl
    · rw [hctx, hctx2]
      rfl
    · rw [hlog]
      simp [herr]
  | PUSH pl =>
    have hd : d = proposedDetails P (Event.PUSH pl) c := by
      have := hpend
      simp [pendingAtGuard] at this
      exact this.symm
    subst hd
    have hstep : stepIdle P ⟨s0, c, L⟩ (Event.PUSH pl)
        = enterNavigating P (invokeNavigationStart P
            ⟨s0, setNavigating P (Event.PUSH pl) c, L⟩) := rfl
    rw [hstep]
    have hctx2 : (invokeNavigationStart P
        ⟨s0, setNavigating P (Event.PUSH pl) c, L⟩).ctx
        = setNavigating P (Event.PUSH pl) c :=
      invokeNavigationStart_ctx P _
    obtain ⟨hst, hctx, hlog⟩ := enterNavigating_deny P
      (invokeNavigationStart P ⟨s0, setNavigating P (Event.PUSH pl) c, L⟩) g
      (proposedDetails P (Event.PUSH pl) c) hg (by rw [hctx2]; rfl) hdeny
    refine ⟨hst, ?_, ?_, ?_, ?_⟩
    · rw [hctx, hctx2]
      rfl
    · rw [hctx, hctx2]
      rfl
    · rw [hctx, hctx2]
      rfl
    · rw [hlog]
      simp [herr]
  | REPLACE pl =>
    have hd : d = proposedDetails P (Event.REPLACE pl) c := by
      have := hpend
      simp [pendingAtGuard] at this
      exact this.symm
    subst hd
    have hstep : stepIdle P ⟨s0, c, L⟩ (Event.REPLACE pl)
        = enterNavigating P (invokeNavigationStart P
            ⟨s0, setNavigating P (Event.REPLACE pl) c, L⟩) := rfl
    rw [hstep]
    have hctx2 : (invokeNavigationStart P
        ⟨s0, setNavigating P (Event.REPLACE pl) c, L⟩).ctx
        = setNavigating P (Event.REPLACE pl) c :=
      invokeNavigationStart_ctx P _
    obtain ⟨hst, hctx, hlog⟩ := enterNavigating_deny P
      (invokeNavigationStart P ⟨s0, setNavigating P (Event.REPLACE pl) c, L⟩) g
      (proposedDetails P (Event.REPLACE pl) c) hg (by rw [hctx2]; rfl) hdeny
    refine ⟨hst, ?_, ?_, ?_, ?_⟩
    · rw [hctx, hctx2]
      rfl
    · rw [hctx, hctx2]
      rfl
    · rw [hctx, hctx2]
      rfl
    · rw [hlog]
      simp [herr]

/-- A configuration whose guard denies everything and which observes
navigation errors. -/
def denyProps : Props :=
  { sampleProps with
      onBeforeNavigate := some fun _ => GuardResult.deny
      hasOnNavigationError := true }

/-- A concrete idle context at the root location. -/
def idleCtx : Ctx :=
  { location := { pathname := "/", search := "", hash := "", params := [],
                  query := [], meta := none, name := none }
    previousLocation := none
    navigating := false
    pendingNavigation := none
    initDone := true
    historyStack := [{ pathname := "/", search := "", hash := "", params := [],
                       query := [], meta := none, name := none }]
    historyIndex := 0 }

/-- A concrete `NAVIGATE` payload targeting `/b`. -/
def payloadB : EventPayload :=
  { pathname := some "/b", search := none, hash := none, url := none }

/-- Witness for claim C6: a concrete blocked `NAVIGATE` from `idle`. -/
theorem guard_block_error_c6_witness :
    blockedC6Conclusion denyProps idleCtx [] (Event.NAVIGATE payloadB) SName.idle :=
  guard_block_error_c6 denyProps idleCtx [] (Event.NAVIGATE payloadB) SName.idle
    (fun _ => GuardResult.deny)
    (proposedDetails denyProps (Event.NAVIGATE payloadB) idleCtx)
    (Or.inl rfl) rfl rfl rfl rfl

theorem initializingOn_complete_st (P : Props) (s : MState) :
    (initializingOn P s SentEvent.complete).st = SName.idle :=
  rfl

/-- The commit sequence of `initializing` on `NAVIGATION_COMPLETE`: the
machine lands in `idle`, the committed location is the pending target with
params resolved and metadata enrichment, and (when configured) the
navigation-end observer received the pending details. -/
theorem initializingOn_complete_spec (P : Props) (s : MState) (d : NavigationDetails)
    (hp : s.ctx.pendingNavigation = some d) :
    (initializingOn P s SentEvent.complete).st = SName.idle ∧
    (initializingOn P s SentEvent.complete).ctx.location
      = enrichLocationWithMeta (resolveParams d.toLoc P.routes) P.routes ∧
    (P.hasOnNavigationEnd = true →
      ObsCall.endNav d ∈ (initializingOn P s SentEvent.complete).log) := by
  unfold initializingOn
  refine ⟨rfl, ?_, ?_⟩
  · show (clearNavigating (invokeOnNavigate P (invokeNavigationEnd P
      { s with ctx := updateHistory (updateLocation P s.ctx) })).ctx).location = _
    rw [invokeOnNavigate_ctx, invokeNavigationEnd_ctx]
    show (updateHistory (updateLocation P s.ctx)).location = _
    rw [updateHistory_location, updateLocation_location_of P s.ctx d hp]
  · intro hend
    show ObsCall.endNav d ∈ (invokeOnNavigate P (invokeNavigationEnd P
      { s with ctx := updateHistory (updateLocation P s.ctx) })).log
    have hp1 : ({ s with ctx := updateHistory (updateLocation P s.ctx)} : MState).ctx.pendingNavigation
        = some d := by
      show (updateHistory (updateLocation P s.ctx)).pendingNavigation = some d
      rw [updateHistory_pending, updateLocation_pending, hp]
    obtain ⟨t, ht⟩ := invokeOnNavigate_log_append P
      (invokeNavigationEnd P { s with ctx := updateHistory (updateLocation P s.ctx) })
    rw [ht, invokeNavigationEnd_log_of P _ d hp1 hend]
    simp

/-- The commit sequence of `navigating` on `NAVIGATION_COMPLETE`: identical
to the `initializing` one, the extra browser-URL and scroll side effects not
touching the modelled context. -/
theorem navigatingOn_complete_spec (P : Props) (s : MState) (d : NavigationDetails)
    (hp : s.ctx.pendingNavigation = some d) :
    (navigatingOn P s SentEvent.complete).st = SName.idle ∧
    (navigatingOn P s SentEvent.complete).ctx.location
      = enrichLocationWithMeta (resolveParams d.toLoc P.routes) P.routes ∧
    (P.hasOnNavigationEnd = true →
      ObsCall.endNav d ∈ (navigatingOn P s SentEvent.complete).log) := by
  unfold navigatingOn
  refine ⟨rfl, ?_, ?_⟩
  · show (clearNavigating (invokeOnNavigate P (invokeNavigationEnd P
      { s with ctx := updateHistory (updateLocation P s.ctx) })).ctx).location = _
    rw [invokeOnNavigate_ctx, invokeNavigationEnd_ctx]
    show (updateHistory (updateLocation P s.ctx)).location = _
    rw [updateHistory_location, updateLocation_location_of P s.ctx d hp]
  · intro hend
    show ObsCall.endNav d ∈ (invokeOnNavigate P (invokeNavigationEnd P
      { s with ctx := updateHistory (updateLocation P s.ctx) })).log
    have hp1 : ({ s with ctx := updateHistory (updateLocation P s.ctx)} : MState).ctx.pendingNavigation
        = some d := by
      show (updateHistory (updateLocation P s.ctx)).pendingNavigation = some d
      rw [updateHistory_pending, updateLocation_pending, hp]
    obtain ⟨t, ht⟩ := invokeOnNavigate_log_append P
      (invokeNavigationEnd P { s with ctx := updateHistory (updateLocation P s.ctx) })
    rw [ht, invokeNavigationEnd_log_of P _ d hp1 hend]
    simp

/-- `invokeBeforeNavigateForInitial` sends `NAVIGATION_COMPLETE` in every
branch, so the machine always leaves `initializing` for `idle`, never for
`error`. -/
theorem runInitialGuard_st (Q : Props) (s : MState) :
    (runInitialGuard Q s).st = SName.idle := by
  unfold runInitialGuard
  cases hg : Q.onBeforeNavigate with
  | none => cases hp : s.ctx.pendingNavigation <;>
      simp [hg, hp, initializingOn_complete_st]
  | some g =>
    cases hp : s.ctx.pendingNavigation with
    | none => simp [hg, hp, initializingOn_complete_st]
    | some d => cases hr : g d <;> simp [hg, hp, hr, initializingOn_complete_st]

/-- The initial guard pipeline when the guard denies: the fallback details
are substituted as the pending navigation and committed. -/
theorem runInitialGuard_deny_eq (P : Props) (s : MState)
    (g : NavigationDetails → GuardResult) (d : NavigationDetails)
    (hg : P.onBeforeNavigate = some g)
    (hp : s.ctx.pendingNavigation = some d)
    (hd : g d = GuardResult.deny) :
    runInitialGuard P s
      = initializingOn P
          { st := s.st
            ctx := { s.ctx with pendingNavigation := some (fallbackDetails P) }
            log := s.log ++ [ObsCall.beforeNav d] }
          SentEvent.complete := by
  unfold runInitialGuard
  simp only [hg, hp, hd]

/-- Claim C7: for the initial-load transition, a guard returning `false`
never sends the machine to `error` — the initial pipeline always ends in
`idle` — and instead the base-path fallback (`parseUrl "/"`, pathname `/`)
is substituted as the pending navigation and committed as the new location,
with `from: null` and type `replace`. -/
theorem initial_block_fallback_c7 (P : Props) (g : NavigationDetails → GuardResult)
    (hg : P.onBeforeNavigate = some g)
    (hdeny : g (initialDetails P) = GuardResult.deny) :
    (∀ (Q : Props) (s : MState), (runInitialGuard Q s).st ≠ SName.error) ∧
    (runInitialGuard P (initMachine P)).st = SName.idle ∧
    (runInitialGuard P (initMachine P)).ctx.location.pathname = "/" ∧
    (P.hasOnNavigationEnd = true →
      ObsCall.endNav (fallbackDetails P) ∈ (runInitialGuard P (initMachine P)).log ∧
      (fallbackDetails P).fromLoc = none ∧
      (fallbackDetails P).type = NavType.replace ∧
      (fallbackDetails P).toLoc.pathname = "/") := by
  have hpend : (initMachine P).ctx.pendingNavigation = some (initialDetails P) := rfl
  have heq := runInitialGuard_deny_eq P (initMachine P) g (initialDetails P) hg hpend hdeny
  have hfb : ({ st := (initMachine P).st
                ctx := { (initMachine P).ctx with
                         pendingNavigation := some (fallbackDetails P) }
                log := (initMachine P).log ++ [ObsCall.beforeNav (initialDetails P)] }
      : MState).ctx.pendingNavigation = some (fallbackDetails P) := rfl
  obtain ⟨hst, hloc, hend⟩ := initializingOn_complete_spec P _ (fallbackDetails P) hfb
  have hpath : (fallbackDetails P).toLoc.pathname = "/" := by
    show (enrichLocationWithMeta (enrichLocationWithMeta (parseUrl "/" P.basePath)
      P.routes) P.routes).pathname = "/"
    rw [enrichLocationWithMeta_pathname, enrichLocationWithMeta_pathname]
    exact parseUrl_root P.basePath
  refine ⟨?_, ?_, ?_, ?_⟩
  · intro Q s hcontra
    rw [runInitialGuard_st Q s] at hcontra
    exact SName.noConfusion hcontra
  · rw [heq]
    exact hst
  · rw [heq, hloc, enrichLocationWithMeta_pathname, resolveParams_pathname]
    exact hpath
  · intro he
    exact ⟨by rw [heq]; exact hend he, rfl, rfl, hpath⟩

/-- A configuration whose guard denies everything and which observes
navigation ends. -/
def denyEndProps : Props :=
  { sampleProps with
      onBeforeNavigate := some fun _ => GuardResult.deny
      hasOnNavigationEnd := true }

/-- Witness for claim C7: a concrete machine whose guard denies the initial
load ends idle at the root fallback. -/
theorem initial_block_fallback_c7_witness :
    (∀ (Q : Props) (s : MState), (runInitialGuard Q s).st ≠ SName.error) ∧
    (runInitialGuard denyEndProps (initMachine denyEndProps)).st = SName.idle ∧
    (runInitialGuard denyEndProps (initMachine denyEndProps)).ctx.location.pathname
      = "/" ∧
    (denyEndProps.hasOnNavigationEnd = true →
      ObsCall.endNav (fallbackDetails denyEndProps)
          ∈ (runInitialGuard denyEndProps (initMachine denyEndProps)).log ∧
      (fallbackDetails denyEndProps).fromLoc = none ∧
      (fallbackDetails denyEndProps).type = NavType.replace ∧
      (fallbackDetails denyEndProps).toLoc.pathname = "/") :=
  initial_block_fallback_c7 denyEndProps (fun _ => GuardResult.deny) rfl rfl

/-- Whether an observer-log entry is a guard (`onBeforeNavigate`)
invocation. -/
def isBeforeNavCall : ObsCall → Bool
  | ObsCall.beforeNav _ => true
  | _ => false

/-- How many guard invocations a log records. -/
def beforeNavCount (log : List ObsCall) : Nat :=
  (log.filter isBeforeNavCall).length

theorem beforeNavCount_append (a b : List ObsCall) :
    beforeNavCount (a ++ b) = beforeNavCount a + beforeNavCount b := by
  simp [beforeNavCount, List.filter_append]

theorem beforeNavCount_invokeNavigationStart (P : Props) (s : MState) :
    beforeNavCount (invokeNavigationStart P s).log = beforeNavCount s.log := by
  unfold invokeNavigationStart
  cases s.ctx.pendingNavigation with
  | none => rfl
  | some d =>
    by_cases h : P.hasOnNavigationStart = true <;>
      simp [h, beforeNavCount_append, beforeNavCount, isBeforeNavCall]

theorem beforeNavCount_invokeNavigationEnd (P : Props) (s : MState) :
    beforeNavCount (invokeNavigationEnd P s).log = beforeNavCount s.log := by
  unfold invokeNavigationEnd
  cases s.ctx.pendingNavigation with
  | none => rfl
  | some d =>
    by_cases h : P.hasOnNavigationEnd = true <;>
      simp [h, beforeNavCount_append, beforeNavCount, isBeforeNavCall]

theorem beforeNavCount_invokeOnNavigate (P : Props) (s : MState) :
    beforeNavCount (invokeOnNavigate P s).log = beforeNavCount s.log := by
  unfold invokeOnNavigate
  cases s.ctx.pendingNavigation with
  | none => rfl
  | some d =>
    by_cases h : P.hasOnNavigate = true <;>
      simp [h, beforeNavCount_append, beforeNavCount, isBeforeNavCall]

theorem beforeNavCount_navigatingOn_complete (P : Props) (s : MState) :
    beforeNavCount (navigatingOn P s SentEvent.complete).log
      = beforeNavCount s.log := by
  show beforeNavCount (invokeOnNavigate P (invokeNavigationEnd P
      { s with ctx := updateHistory (updateLocation P s.ctx) })).log = _
  rw [beforeNavCount_invokeOnNavigate, beforeNavCount_invokeNavigationEnd]

theorem beforeNavCount_initializingOn_complete (P : Props) (s : MState) :
    beforeNavCount (initializingOn P s SentEvent.complete).log
      = beforeNavCount s.log := by
  show beforeNavCount (invokeOnNavigate P (invokeNavigationEnd P
      { s with ctx := updateHistory (updateLocation P s.ctx) })).log = _
  rw [beforeNavCount_invokeOnNavigate, beforeNavCount_invokeNavigationEnd]

/-- Entering `navigating` when the guard redirects: the pending navigation is
replaced by the redirect details and the commit proceeds; the guard has been
invoked exactly once. -/
theorem enterNavigating_redirect_eq (P : Props) (s : MState)
    (g : NavigationDetails → GuardResult) (d : NavigationDetails) (url : String)
    (hg : P.onBeforeNavigate = some g)
    (hp : s.ctx.pendingNavigation = some d)
    (hr : g d = GuardResult.redirect url) :
    enterNavigating P s
      = navigatingOn P
          { st := SName.navigating
            ctx := { s.ctx with
              pendingNavigation := some (redirectDetails P s.ctx.location url) }
            log := s.log ++ [ObsCall.beforeNav d] }
          SentEvent.complete := by
  unfold enterNavigating invokeBeforeNavigate
  simp only [hg, hp, hr]

/-- The initial guard pipeline when the guard redirects. -/
theorem runInitialGuard_redirect_eq (P : Props) (s : MState)
    (g : NavigationDetails → GuardResult) (d : NavigationDetails) (url : String)
    (hg : P.onBeforeNavigate = some g)
    (hp : s.ctx.pendingNavigation = some d)
    (hr : g d = GuardResult.redirect url) :
    runInitialGuard P s
      = initializingOn P
          { st := s.st
            ctx := { s.ctx with
              pendingNavigation := some (initialRedirectDetails P url) }
            log := s.log ++ [ObsCall.beforeNav d] }
          SentEvent.complete := by
  unfold runInitialGuard
  simp only [hg, hp, hr]

/-- The conclusion of claim C8 for a non-initial programmatic transition:
the transition commits (back to `idle`) at pathname `/x`, the details at
commit time are the `replace`-typed redirect details, and exactly one guard
invocation was added to the log. -/
def redirectC8NonInitial (P : Props) (c : Ctx) (L : List ObsCall) (e : Event) : Prop :=
  (step P ⟨SName.idle, c, L⟩ e).st = SName.idle ∧
  (step P ⟨SName.idle, c, L⟩ e).ctx.location.pathname = "/x" ∧
  (P.hasOnNavigationEnd = true →
    ObsCall.endNav (redirectDetails P c.location "/x")
        ∈ (step P ⟨SName.idle, c, L⟩ e).log ∧
    (redirectDetails P c.location "/x").type = NavType.replace ∧
    (redirectDetails P c.location "/x").toLoc.pathname = "/x") ∧
  beforeNavCount (step P ⟨SName.idle, c, L⟩ e).log = beforeNavCount L + 1

/-- The conclusion of claim C8 for the initial transition. -/
def redirectC8Initial (P : Props) : Prop :=
  (runInitialGuard P (initMachine P)).st = SName.idle ∧
  (runInitialGuard P (initMachine P)).ctx.location.pathname = "/x" ∧
  (P.hasOnNavigationEnd = true →
    ObsCall.endNav (initialRedirectDetails P "/x")
        ∈ (runInitialGuard P (initMachine P)).log ∧
    (initialRedirectDetails P "/x").type = NavType.replace ∧
    (initialRedirectDetails P "/x").toLoc.pathname = "/x") ∧
  beforeNavCount (runInitialGuard P (initMachine P)).log = 1

/-- Claim C8: for every transition — a programmatic one from `idle`, and the
initial-load one — whose guard returns the string `/x` (under the default
base path `/`), the final committed location has pathname `/x`, the pending
NavigationDetails at commit time has type `replace`, and the guard is invoked
exactly once for the transition (it is not re-invoked on the redirect
target). -/
theorem guard_redirect_c8 (P : Props) (c : Ctx) (L : List ObsCall) (e : Event)
    (g : NavigationDetails → GuardResult)
    (hbp : P.basePath = "/")
    (hg : P.onBeforeNavigate = some g)
    (he : (∃ pl, e = Event.NAVIGATE pl) ∨ (∃ pl, e = Event.PUSH pl) ∨
      (∃ pl, e = Event.REPLACE pl))
    (hred : g (proposedDetails P e c) = GuardResult.redirect "/x")
    (hredInit : g (initialDetails P) = GuardResult.redirect "/x") :
    redirectC8NonInitial P c L e ∧ redirectC8Initial P := by
  have hxpath : (parseUrl "/x" P.basePath).pathname = "/x" := by
    rw [hbp]
    rfl
  constructor
  · unfold redirectC8NonInitial
    rw [stepIdle_prog_eq P c L e he]
    have hctx2 : (invokeNavigationStart P
        ⟨SName.idle, setNavigating P e c, L⟩).ctx = setNavigating P e c :=
      invokeNavigationStart_ctx P _
    have hpend2 : (invokeNavigationStart P
        ⟨SName.idle, setNavigating P e c, L⟩).ctx.pendingNavigation
        = some (proposedDetails P e c) := by
      rw [hctx2]
      rfl
    have hloc2 : (invokeNavigationStart P
        ⟨SName.idle, setNavigating P e c, L⟩).ctx.location = c.location := by
      rw [hctx2]
      rfl
    have heq := enterNavigating_redirect_eq P _ g (proposedDetails P e c) "/x"
      hg hpend2 hred
    rw [hloc2] at heq
    rw [heq]
    obtain ⟨hst, hloc, hend⟩ := navigatingOn_complete_spec P
      { st := SName.navigating
        ctx := { (invokeNavigationStart P
            ⟨SName.idle, setNavigating P e c, L⟩).ctx with
          pendingNavigation := some (redirectDetails P c.location "/x") }
        log := (invokeNavigationStart P
            ⟨SName.idle, setNavigating P e c, L⟩).log
          ++ [ObsCall.beforeNav (proposedDetails P e c)] }
      (redirectDetails P c.location "/x") rfl
    have hrpath : (redirectDetails P c.location "/x").toLoc.pathname = "/x" := by
      show (enrichLocationWithMeta (enrichLocationWithMeta (parseUrl "/x" P.basePath)
        P.routes) P.routes).pathname = "/x"
      rw [enrichLocationWithMeta_pathname, enrichLocationWithMeta_pathname]
      exact hxpath
    refine ⟨hst, ?_, ?_, ?_⟩
    · rw [hloc, enrichLocationWithMeta_pathname, resolveParams_pathname]
      exact hrpath
    · intro hendFlag
      exact ⟨hend hendFlag, rfl, hrpath⟩
    · rw [beforeNavCount_navigatingOn_complete]
      show beforeNavCount ((invokeNavigationStart P
        ⟨SName.idle, setNavigating P e c, L⟩).log ++ [ObsCall.beforeNav _]) = _
      rw [beforeNavCount_append, beforeNavCount_invokeNavigationStart]
      rfl
  · unfold redirectC8Initial
    have hpend : (initMachine P).ctx.pendingNavigation = some (initialDetails P) := rfl
    have heq := runInitialGuard_redirect_eq P (initMachine P) g (initialDetails P)
      "/x" hg hpend hredInit
    rw [heq]
    obtain ⟨hst, hloc, hend⟩ := initializingOn_complete_spec P
      { st := (initMachine P).st
        ctx := { (initMachine P).ctx with
          pendingNavigation := some (initialRedirectDetails P "/x") }
        log := (initMachine P).log ++ [ObsCall.beforeNav (initialDetails P)] }
      (initialRedirectDetails P "/x") rfl
    have hrpath : (initialRedirectDetails P "/x").toLoc.pathname = "/x" := by
      show (enrichLocationWithMeta (enrichLocationWithMeta (parseUrl "/x" P.basePath)
        P.routes) P.routes).pathname = "/x"
      rw [enrichLocationWithMeta_pathname, enrichLocationWithMeta_pathname]
      exact hxpath
    refine ⟨hst, ?_, ?_, ?_⟩
    · rw [hloc, enrichLocationWithMeta_pathname, resolveParams_pathname]
      exact hrpath
    · intro hendFlag
      exact ⟨hend hendFlag, rfl, hrpath⟩
    · rw [beforeNavCount_initializingOn_complete]
      show beforeNavCount ((initMachine P).log ++ [ObsCall.beforeNav _]) = 1
      rw [beforeNavCount_append]
      rfl

/-- A configuration whose guard always redirects to `/x` and which observes
navigation ends. -/
def redirectProps : Props :=
  { sampleProps with
      onBeforeNavigate := some fun _ => GuardResult.redirect "/x"
      hasOnNavigationEnd := true }

/-- Witness for claim C8: a concrete always-redirecting guard, exercised on a
programmatic `NAVIGATE` from `idle` and on the initial load. -/
theorem guard_redirect_c8_witness :
    redirectC8NonInitial redirectProps idleCtx [] (Event.NAVIGATE payloadB) ∧
    redirectC8Initial redirectProps :=
  guard_redirect_c8 redirectProps idleCtx [] (Event.NAVIGATE payloadB)
    (fun _ => GuardResult.redirect "/x") rfl rfl (Or.inl ⟨payloadB, rfl⟩) rfl rfl

/-! ### The specificity comparator as a key order -/

/-- Static routes rank 0, dynamic routes rank 1 in the comparator. -/
def staticRank (r : RouteDefinition) : Nat :=
  if isStaticPath r.path then 0 else 1

/-- Wildcard-free routes rank 0, catch-alls rank 1 in the comparator's final
tiebreak. -/
def catchRank (r : RouteDefinition) : Nat :=
  if hasWildcard r.path then 1 else 0

/-- The sort key the comparator realises: staticness first, then segment
count descending (negated), then the catch-all tiebreak. -/
def routeKey (r : RouteDefinition) : Nat × Int × Nat :=
  (staticRank r, -(segCount r.path : Int), catchRank r)

/-- Lexicographic non-strict order on sort keys. -/
def keyLe (x y : Nat × Int × Nat) : Prop :=
  x.1 < y.1 ∨ (x.1 = y.1 ∧ (x.2.1 < y.2.1 ∨ (x.2.1 = y.2.1 ∧ x.2.2 ≤ y.2.2)))

theorem keyLe_trans (x y z : Nat × Int × Nat) :
    keyLe x y → keyLe y z → keyLe x z := by
  obtain ⟨a1, a2, a3⟩ := x
  obtain ⟨b1, b2, b3⟩ := y
  obtain ⟨c1, c2, c3⟩ := z
  unfold keyLe
  dsimp only
  omega

theorem keyLe_total (x y : Nat × Int × Nat) : keyLe x y ∨ keyLe y x := by
  obtain ⟨a1, a2, a3⟩ := x
  obtain ⟨b1, b2, b3⟩ := y
  unfold keyLe
  dsimp only
  omega

theorem keyLe_antisymm (x y : Nat × Int × Nat) :
    keyLe x y → keyLe y x → x = y := by
  obtain ⟨a1, a2, a3⟩ := x
  obtain ⟨b1, b2, b3⟩ := y
  unfold keyLe
  dsimp only
  intro h1 h2
  have : a1 = b1 ∧ a2 = b2 ∧ a3 = b3 := by omega
  simp [this.1, this.2.1, this.2.2]

/-- The comparator's sign agrees with the lexicographic key order. -/
theorem cmpRoutes_le_iff (a b : RouteDefinition) :
    cmpRoutes a b ≤ 0 ↔ keyLe (routeKey a) (routeKey b) := by
  unfold cmpRoutes routeKey staticRank catchRank keyLe
  by_cases ha : isStaticPath a.path <;> by_cases hb : isStaticPath b.path <;>
    by_cases hwa : hasWildcard a.path <;> by_cases hwb : hasWildcard b.path <;>
      by_cases hseg : segCount a.path = segCount b.path <;>
        simp [ha, hb, hwa, hwb, hseg] <;> omega

/-- The comparator returns zero exactly on equal keys. -/
theorem cmpRoutes_eq_zero_iff (a b : RouteDefinition) :
    cmpRoutes a b = 0 ↔ routeKey a = routeKey b := by
  unfold cmpRoutes routeKey staticRank catchRank
  by_cases ha : isStaticPath a.path <;> by_cases hb : isStaticPath b.path <;>
    by_cases hwa : hasWildcard a.path <;> by_cases hwb : hasWildcard b.path <;>
      by_cases hseg : segCount a.path = segCount b.path <;>
        simp [ha, hb, hwa, hwb, hseg, Prod.ext_iff] <;> omega

theorem cmpRoutes_self (a : RouteDefinition) : cmpRoutes a a = 0 :=
  (cmpRoutes_eq_zero_iff a a).mpr rfl

theorem routeLe_refl (a : RouteDefinition) : routeLe a a := by
  unfold routeLe
  rw [cmpRoutes_self a]

/-- Mutually non-strict comparisons force a comparator tie. -/
theorem cmpRoutes_le_antisymm (a b : RouteDefinition) :
    cmpRoutes a b ≤ 0 → cmpRoutes b a ≤ 0 → cmpRoutes a b = 0 := by
  intro h1 h2
  rw [cmpRoutes_le_iff] at h1 h2
  exact (cmpRoutes_eq_zero_iff a b).mpr (keyLe_antisymm _ _ h1 h2)

instance : IsTotal RouteDefinition routeLe :=
  ⟨fun a b => by
    unfold routeLe
    rw [cmpRoutes_le_iff, cmpRoutes_le_iff]
    exact keyLe_total _ _⟩

instance : IsTrans RouteDefinition routeLe :=
  ⟨fun a b c hab hbc => by
    unfold routeLe at hab hbc ⊢
    rw [cmpRoutes_le_iff] at hab hbc ⊢
    exact keyLe_trans _ _ _ hab hbc⟩

/-- In a list sorted by the comparator order, the first element satisfying a
predicate sorts no later than every element satisfying it. -/
theorem find?_min_of_sorted {l : List RouteDefinition} (hs : l.Sorted routeLe)
    {q : RouteDefinition → Bool} {x : RouteDefinition} (hfind : l.find? q = some x) :
    ∀ y ∈ l, q y = true → routeLe x y := by
  induction l with
  | nil => simp at hfind
  | cons hd t ih =>
    by_cases hqa : q hd = true
    · rw [List.find?_cons_of_pos _ hqa] at hfind
      obtain rfl : hd = x := by injection hfind
      intro y hy hqy
      rcases hy with _ | hy
      · exact routeLe_refl hd
      · exact (List.sorted_cons.mp hs).1 y (by assumption)
    · rw [List.find?_cons_of_neg _ (by simpa using hqa)] at hfind
      intro y hy hqy
      rcases hy with _ | hy
      · exact absurd hqy hqa
      · exact ih (List.sorted_cons.mp hs).2 hfind y (by assumption) hqy

/-- Claim C4: for every pathname and every pair of route lists that are
permutations of each other, `findBestMatchingRoute` returns the same route,
provided the specificity order over the matching routes is unambiguous (no
two matching routes compare equal under the comparator without being the same
route). -/
theorem findBest_perm_c4 (p : String) (rs1 rs2 : List RouteDefinition)
    (hperm : rs1.Perm rs2)
    (huniq : ∀ a ∈ rs1, ∀ b ∈ rs1, matchesPattern p a.path = true →
      matchesPattern p b.path = true → cmpRoutes a b = 0 → a = b) :
    findBestMatchingRoute p rs1 = findBestMatchingRoute p rs2 := by
  unfold findBestMatchingRoute sortRoutes
  have hs1 : (List.insertionSort routeLe rs1).Sorted routeLe :=
    List.sorted_insertionSort routeLe rs1
  have hs2 : (List.insertionSort routeLe rs2).Sorted routeLe :=
    List.sorted_insertionSort routeLe rs2
  have hp1 : (List.insertionSort routeLe rs1).Perm rs1 :=
    List.perm_insertionSort routeLe rs1
  have hp2 : (List.insertionSort routeLe rs2).Perm rs2 :=
    List.perm_insertionSort routeLe rs2
  cases h1 : (List.insertionSort routeLe rs1).find? fun r => matchesPattern p r.path with
  | none =>
    cases h2 : (List.insertionSort routeLe rs2).find? fun r => matchesPattern p r.path with
    | none => rfl
    | some x2 =>
      exfalso
      have hx2q : matchesPattern p x2.path = true := by
        simpa using List.find?_some h2
      have hx2m : x2 ∈ List.insertionSort routeLe rs1 :=
        hp1.mem_iff.mpr (hperm.mem_iff.mpr (hp2.mem_iff.mp (List.mem_of_find?_eq_some h2)))
      exact absurd hx2q (by simpa using List.find?_eq_none.mp h1 x2 hx2m)
  | some x1 =>
    have hx1q : matchesPattern p x1.path = true := by
      simpa using List.find?_some h1
    have hx1rs1 : x1 ∈ rs1 := hp1.mem_iff.mp (List.mem_of_find?_eq_some h1)
    cases h2 : (List.insertionSort routeLe rs2).find? fun r => matchesPattern p r.path with
    | none =>
      exfalso
      have hx1m2 : x1 ∈ List.insertionSort routeLe rs2 :=
        hp2.mem_iff.mpr (hperm.mem_iff.mp hx1rs1)
      exact absurd hx1q (by simpa using List.find?_eq_none.mp h2 x1 hx1m2)
    | some x2 =>
      have hx2q : matchesPattern p x2.path = true := by
        simpa using List.find?_some h2
      have hx2rs1 : x2 ∈ rs1 :=
        hperm.mem_iff.mpr (hp2.mem_iff.mp (List.mem_of_find?_eq_some h2))
      have h12 : routeLe x1 x2 :=
        find?_min_of_sorted hs1 h1 x2 (hp1.mem_iff.mpr hx2rs1) hx2q
      have h21 : routeLe x2 x1 :=
        find?_min_of_sorted hs2 h2 x1 (hp2.mem_iff.mpr (hperm.mem_iff.mp hx1rs1)) hx1q
      have hz : cmpRoutes x1 x2 = 0 := cmpRoutes_le_antisymm x1 x2 h12 h21
      rw [huniq x1 hx1rs1 x2 hx2rs1 hx1q hx2q hz]

/-- Witness for claim C4: the spec's own example — `/users/:id` beats `/*`
for pathname `/users/7` in either declaration order. -/
theorem findBest_perm_c4_witness :
    findBestMatchingRoute "/users/7"
        [⟨"/users/:id", none, none⟩, ⟨"/*", none, none⟩]
      = findBestMatchingRoute "/users/7"
        [⟨"/*", none, none⟩, ⟨"/users/:id", none, none⟩] :=
  findBest_perm_c4 "/users/7"
    [⟨"/users/:id", none, none⟩, ⟨"/*", none, none⟩]
    [⟨"/*", none, none⟩, ⟨"/users/:id", none, none⟩]
    (by decide) (by decide)

/-- The specificity comparator claim C3 describes, stated from the spec's
words: static patterns first; catch-all patterns last regardless of segment
count; among the rest, more path segments first; ties equal (broken by
declaration order through the stable sort). -/
def claimCmpRoutes (a b : RouteDefinition) : Int :=
  let aStatic := isStaticPath a.path
  let bStatic := isStaticPath b.path
  if aStatic && !bStatic then -1
  else if !aStatic && bStatic then 1
  else if hasWildcard a.path && !hasWildcard b.path then 1
  else if !hasWildcard a.path && hasWildcard b.path then -1
  else
    let aSeg := segCount a.path
    let bSeg := segCount b.path
    if aSeg ≠ bSeg then (bSeg : Int) - (aSeg : Int)
    else 0

/-- The non-strict order of the claimed comparator. -/
def claimRouteLe (a b : RouteDefinition) : Prop :=
  claimCmpRoutes a b ≤ 0

instance : DecidableRel claimRouteLe := fun a b => by
  unfold claimRouteLe
  infer_instance

/-- `findBestMatchingRoute` as claim C3 describes it: the first match in the
claimed specificity order. -/
def claimFindBest (pathname : String) (routes : List RouteDefinition) :
    Option RouteDefinition :=
  (List.insertionSort claimRouteLe routes).find? fun route =>
    matchesPattern pathname route.path

/-- Claim C3, counterexample: for routes `[/:a, /admin/*]` and pathname
`/admin`, the claimed ordering (catch-alls last regardless of segment count)
would return `/:a`, but the code compares segment counts before the catch-all
tiebreak, sorts the three-segment catch-all `/admin/*` before the two-segment
`/:a`, and returns `/admin/*`. -/
theorem specificity_order_c3_counterexample :
    claimFindBest "/admin" [⟨"/:a", none, none⟩, ⟨"/admin/*", none, none⟩]
        = some ⟨"/:a", none, none⟩ ∧
      findBestMatchingRoute "/admin" [⟨"/:a", none, none⟩, ⟨"/admin/*", none, none⟩]
        = some ⟨"/admin/*", none, none⟩ ∧
      (⟨"/:a", none, none⟩ : RouteDefinition) ≠ ⟨"/admin/*", none, none⟩ := by
  refine ⟨by decide, by decide, by decide⟩

/-- Claim C3, amended: `findBestMatchingRoute` returns the first pattern
matching the pathname in the order of a stable sort (ties keep declaration
order) of the route list by a comparator that places static patterns before
dynamic ones, among routes of equal staticness places those with more path
segments before those with fewer, and places catch-all patterns after
non-catch-alls only among routes of equal staticness and equal segment count
— not regardless of segment count: a catch-all with more segments sorts
before a dynamic route with fewer. -/
theorem specificity_order_c3_amended (rs : List RouteDefinition) (p : String) :
    (findBestMatchingRoute p rs
        = (sortRoutes rs).find? fun r => matchesPattern p r.path) ∧
    (sortRoutes rs).Perm rs ∧
    (sortRoutes rs).Sorted routeLe ∧
    (∀ a b : RouteDefinition, routeLe a b → [a, b].Sublist rs → [a, b].Sublist (sortRoutes rs)) ∧
    (∀ a b : RouteDefinition, isStaticPath a.path = true → isStaticPath b.path = false →
      cmpRoutes a b < 0) ∧
    (∀ a b : RouteDefinition, isStaticPath a.path = isStaticPath b.path →
      segCount b.path < segCount a.path → cmpRoutes a b < 0) ∧
    (∀ a b : RouteDefinition, isStaticPath a.path = isStaticPath b.path →
      segCount a.path = segCount b.path → hasWildcard a.path = true →
      hasWildcard b.path = false → 0 < cmpRoutes a b) ∧
    (∀ a b : RouteDefinition, isStaticPath a.path = isStaticPath b.path →
      segCount a.path = segCount b.path → hasWildcard a.path = hasWildcard b.path →
      cmpRoutes a b = 0) := by
  refine ⟨rfl, List.perm_insertionSort routeLe rs,
    List.sorted_insertionSort routeLe rs,
    fun a b hle hsub => List.pair_sublist_insertionSort hle hsub,
    ?_, ?_, ?_, ?_⟩
  · intro a b ha hb
    unfold cmpRoutes
    simp [ha, hb]
  · intro a b hstat hseg
    unfold cmpRoutes
    have hne : segCount a.path ≠ segCount b.path := by omega
    by_cases ha : isStaticPath a.path <;> by_cases hb : isStaticPath b.path <;>
      first
        | (simp [ha, hb, hne] <;> omega)
        | simp [ha, hb] at hstat
  · intro a b hstat hseg hwa hwb
    unfold cmpRoutes
    by_cases ha : isStaticPath a.path <;> by_cases hb : isStaticPath b.path <;>
      first
        | (simp [ha, hb, hseg, hwa, hwb] <;> done)
        | simp [ha, hb] at hstat
  · intro a b hstat hseg hw
    unfold cmpRoutes
    by_cases ha : isStaticPath a.path <;> by_cases hb : isStaticPath b.path <;>
      by_cases hwa : hasWildcard a.path <;>
        first
          | (simp [ha, hb, hseg, hwa, ← hw] <;> done)
          | simp [ha, hb] at hstat

/-- Witness for claim C3's amended theorem at a concrete route list and
pathname, its comparator clauses instantiated at concrete routes. -/
theorem specificity_order_c3_amended_witness :
    ((findBestMatchingRoute "/users/7"
          [⟨"/users/:id", none, none⟩, ⟨"/*", none, none⟩]
        = (sortRoutes [⟨"/users/:id", none, none⟩, ⟨"/*", none, none⟩]).find?
            fun r => matchesPattern "/users/7" r.path) ∧
      (sortRoutes [⟨"/users/:id", none, none⟩, ⟨"/*", none, none⟩]).Perm
        [⟨"/users/:id", none, none⟩, ⟨"/*", none, none⟩] ∧
      (sortRoutes [⟨"/users/:id", none, none⟩, ⟨"/*", none, none⟩]).Sorted routeLe ∧
      (∀ a b : RouteDefinition, routeLe a b →
        [a, b].Sublist [⟨"/users/:id", none, none⟩, ⟨"/*", none, none⟩] →
        [a, b].Sublist (sortRoutes [⟨"/users/:id", none, none⟩, ⟨"/*", none, none⟩])) ∧
      (∀ a b : RouteDefinition, isStaticPath a.path = true →
        isStaticPath b.path = false → cmpRoutes a b < 0) ∧
      (∀ a b : RouteDefinition, isStaticPath a.path = isStaticPath b.path →
        segCount b.path < segCount a.path → cmpRoutes a b < 0) ∧
      (∀ a b : RouteDefinition, isStaticPath a.path = isStaticPath b.path →
        segCount a.path = segCount b.path → hasWildcard a.path = true →
        hasWildcard b.path = false → 0 < cmpRoutes a b) ∧
      (∀ a b : RouteDefinition, isStaticPath a.path = isStaticPath b.path →
        segCount a.path = segCount b.path → hasWildcard a.path = hasWildcard b.path →
        cmpRoutes a b = 0)) ∧
    cmpRoutes ⟨"/", none, none⟩ ⟨"/users/:id", none, none⟩ < 0 :=
  ⟨specificity_order_c3_amended [⟨"/users/:id", none, none⟩, ⟨"/*", none, none⟩]
      "/users/7",
    (specificity_order_c3_amended [] "/").2.2.2.2.1
      ⟨"/", none, none⟩ ⟨"/users/:id", none, none⟩ (by decide) (by decide)⟩

end RouteMachine
